import Mathlib

/-! Parameter addressing and sysex glue of `pluginLib::Controller`

Shallow embedding of `source/jucePluginLib/controller.cpp` and of the data
declarations of `source/jucePluginLib/midipacket.h`.

Conventions of the embedding

* `uint8_t` / `uint32_t` values are natural numbers; the one place where the
  source narrows a value (`static_cast<uint8_t>(desc.page)`) is written
  `% 256`.
* A heap object (`new Parameter(...)`) is a record that carries the ordinal of
  its allocation in `ptr`; two pointers are the same pointer exactly when the
  records are equal.
* `std::map` / `std::unordered_map` are finite maps looked up by key, written
  as functions into `Option`; the source only ever calls `find`, `insert`
  and mutates a found entry.
* `std::vector` is `List`, `push_back` appends at the end.
* A reference argument that a function writes is an argument (the value on
  entry) and a component of the result (the value on return).
* `assert` and `jassert` compile to nothing (a release build).
* An out-of-range `operator[]` on a vector is undefined behaviour in the
  source; the embedding returns `none` there.
-/

namespace pluginLib

/-! ## Data model -/

/-- Key of the address maps: `ParamIndex{page, part, paramIndex}`, three
`uint8_t`. The struct and its ordering are declared in `controller.h`; the
spec gives the total order by (page, part, index), so `find` on a map is
lookup by equality of the three fields. -/
structure ParamIndex where
  page : Nat
  part : Nat
  paramIndex : Nat
deriving DecidableEq, Repr

/-- The fields of a parameter description that `controller.cpp` reads:
`desc.page`, `desc.index`, `desc.name`, `desc.isPublic` and the result of
`desc.isNonPartSensitive()`. -/
structure Description where
  page : Nat
  index : Nat
  name : String
  isPublic : Bool
  isNonPartSensitive : Bool
deriving DecidableEq, Repr, Inhabited

/-- A `Parameter` object on the heap. `ptr` is the identity of the object (the
ordinal of the `new` that made it); `desc`, `part` and `uid` are the
constructor arguments of `new Parameter(_controller, _desc, _part, _uid)`
(`uid` is a C++ `int`; it is kept unbounded here, the table would need more
than `2^31` rows at one address to overflow it). -/
structure Parameter where
  ptr : Nat
  desc : Description
  part : Nat
  uid : Int
deriving DecidableEq, Repr

/-- The type `Controller::ParameterList` (`std::vector<Parameter*>`). -/
abbrev ParameterList := List Parameter

/-- Finite map with `find` semantics. -/
abbrev FMap (K V : Type) := K → Option V

/-- The empty map. -/
def FMap.empty {K V : Type} : FMap K V := fun _ => none

/-- `std::map::insert(std::make_pair(k, v))`: no effect when the key exists. -/
def FMap.insert {K V : Type} [DecidableEq K] (m : FMap K V) (k : K) (v : V) : FMap K V :=
  match m k with
  | some _ => m
  | none => fun k' => if k' = k then some v else m k'

/-- Assignment through an iterator returned by `find`: `it->second = v`. -/
def FMap.assign {K V : Type} [DecidableEq K] (m : FMap K V) (k : K) (v : V) : FMap K V :=
  fun k' => if k' = k then some v else m k'

/-- The enumeration `MidiDataType` of `midipacket.h`. -/
inductive MidiDataType where
  | Null
  | Byte
  | DeviceId
  | Checksum
  | Bank
  | Program
  | Parameter
  | ParameterIndex
  | ParameterValue
  | Page
  | Part
deriving DecidableEq, Repr

/-- The constant `MidiPacket::AnyPart`. -/
def AnyPart : Nat := 0xff

/-- The struct `MidiPacket::MidiDataDefinition` with its default member values. -/
structure MidiDataDefinition where
  type : MidiDataType := MidiDataType.Null
  byte : Nat := 0
  paramName : String := ""
  paramMask : Nat := 0xff
  paramShift : Nat := 0
  paramPart : Nat := AnyPart
  checksumFirstIndex : Nat := 0
  checksumLastIndex : Nat := 0
  checksumInitValue : Nat := 0
deriving DecidableEq, Repr

/-- The type `MidiPacket::Data` (`std::map<MidiDataType, uint8_t>`). -/
abbrev Data := FMap MidiDataType Nat

/-- The type `MidiPacket::ParamValues`: (part, index) => value. -/
abbrev ParamValues := FMap (Nat × Nat) Nat

/-- The type `MidiPacket::NamedParamValues`: (part, name) => value. -/
abbrev NamedParamValues := FMap (Nat × String) Nat

/-- The type `MidiPacket::Sysex` (`std::vector<uint8_t>`). -/
abbrev Sysex := List Nat

/-- The class `MidiPacket`: its name and its definitions. The tables the
constructor derives from them are not members of the embedding. -/
structure MidiPacket where
  m_name : String
  m_definitions : List MidiDataDefinition
deriving DecidableEq, Repr

/-- What the controller reads of `ParameterDescriptions`: the description
table (`getDescriptions()`) and the named packets in the order in which
`getMidiPackets()` is iterated. -/
structure ParameterDescriptions where
  descriptions : List Description
  midiPackets : List (String × MidiPacket) := []
deriving Repr

/-- Accessor `ParameterDescriptions::getDescriptions()`. -/
def ParameterDescriptions.getDescriptions (d : ParameterDescriptions) : List Description :=
  d.descriptions

/-- Modelled from the spec: `ParameterDescriptions::getMidiPackets()` is not
part of the sources; the spec lists it as the table of named Packet
Definitions, iterated in table order. -/
def ParameterDescriptions.getMidiPackets (d : ParameterDescriptions) :
    List (String × MidiPacket) :=
  d.midiPackets

/-- Modelled from the spec: `ParameterDescriptions::getMidiPacket(name)` is not
part of the sources; the spec has it return the Packet Definition of that
name, `none` standing for the null pointer of an unknown name. -/
def ParameterDescriptions.getMidiPacket (d : ParameterDescriptions) (name : String) :
    Option MidiPacket :=
  (d.midiPackets.find? fun e => e.1 = name).map fun e => e.2

/-- Modelled from the spec: `ParameterDescriptions::getIndexByName` is not part
of the sources; the spec has it map a parameter name to its flat index in the
description table. -/
def ParameterDescriptions.getIndexByName (d : ParameterDescriptions) (name : String) :
    Option Nat :=
  match d.descriptions.findIdx? fun e => e.name = name with
  | some i => some i
  | none => none

/-- The values `synthLib::MidiEventSource` that the controller writes. -/
inductive MidiEventSource where
  | MidiEventSourceUnknown
  | MidiEventSourceEditor
deriving DecidableEq, Repr

/-- The members of `synthLib::SMidiEvent` that the controller writes. -/
structure SMidiEvent where
  sysex : List Nat := []
  source : MidiEventSource := MidiEventSource.MidiEventSourceUnknown
deriving DecidableEq, Repr

/-- The members of `Controller`. `m_paramsByParamType` is the
`std::array<ParameterList, 16>` of per-part flat lists (the array is declared
in `controller.h`; its size is the bound of the part loop), indexed here by
the part number. -/
structure Controller where
  m_descriptions : ParameterDescriptions
  m_paramsByParamType : Nat → ParameterList
  m_synthParams : FMap ParamIndex ParameterList
  m_synthInternalParams : FMap ParamIndex ParameterList
  m_synthInternalParamList : List Parameter
  m_pluginMidiOut : List SMidiEvent

/-- Number of elements of `m_paramsByParamType` (`m_paramsByParamType.size()`). -/
def partCount : Nat := 16

/-- The constructor `Controller::Controller`: every container starts empty. -/
def Controller.new (d : ParameterDescriptions) : Controller where
  m_descriptions := d
  m_paramsByParamType := fun _ => []
  m_synthParams := FMap.empty
  m_synthInternalParams := FMap.empty
  m_synthInternalParamList := []
  m_pluginMidiOut := []

/-- `m_paramsByParamType[part].push_back(p)`. -/
def Controller.pushParam (c : Controller) (part : Nat) (p : Parameter) : Controller :=
  { c with m_paramsByParamType :=
      fun q => if q = part then c.m_paramsByParamType q ++ [p] else c.m_paramsByParamType q }

/-! ## Lookup -/

/-- The function `Controller::findSynthParam(const ParamIndex&)`: the public map
first, then the internal map, then the static empty list. -/
def Controller.findSynthParam (c : Controller) (idx : ParamIndex) : ParameterList :=
  match c.m_synthParams idx with
  | some l => l
  | none =>
    match c.m_synthInternalParams idx with
    | none => []
    | some l => l

/-- The function `Controller::findSynthParam(_part, _page, _paramIndex)`. -/
def Controller.findSynthParam3 (c : Controller) (part page paramIndex : Nat) : ParameterList :=
  c.findSynthParam ⟨page, part, paramIndex⟩

/-- The function `Controller::getParameter(_index, _part)`; `none` is `nullptr`. -/
def Controller.getParameter (c : Controller) (index part : Nat) : Option Parameter :=
  if part ≥ partCount then none
  else if index ≥ (c.m_paramsByParamType part).length then none
  else (c.m_paramsByParamType part)[index]?

/-! ## Registration -/

/-- The function `Controller::createParameter`: `new Parameter(...)`; `ptr` is
the identity the allocator hands out. -/
def createParameter (ptr : Nat) (desc : Description) (part : Nat) (uid : Int) : Parameter :=
  ⟨ptr, desc, part, uid⟩

/-- State threaded through the loops of `registerParams`: the controller, the
local `knownParameterIndices`, and what the loop does to its collaborators:
`heapNext` counts the `new Parameter` calls, `derived` records every call
`existingParam->addDerivedParameter(p)` as the pair `(existingParam, p)`,
`discarded` lists the instances destroyed with their `unique_ptr` at the
`continue`, `globalParams` / `group` are the children of the two juce groups
under construction and `processorGroups` the groups already handed to
`_processor.addParameterGroup`. -/
structure RegState where
  c : Controller
  knownParameterIndices : FMap ParamIndex Int
  heapNext : Nat
  derived : List (Parameter × Parameter)
  discarded : List Parameter
  globalParams : List Parameter
  group : List Parameter
  processorGroups : List (List Parameter)

/-- State on entry of `registerParams`. -/
def RegState.init (c : Controller) : RegState where
  c := c
  knownParameterIndices := FMap.empty
  heapNext := 0
  derived := []
  discarded := []
  globalParams := []
  group := []
  processorGroups := []

/-- Lines 31-38: find the address in `knownParameterIndices`; absent gives uid 0
and inserts 0, present pre-increments the stored counter. -/
def nextUid (known : FMap ParamIndex Int) (idx : ParamIndex) : Int × FMap ParamIndex Int :=
  match known idx with
  | none => (0, known.insert idx 0)
  | some v => (v + 1, known.assign idx (v + 1))

/-- Lines 66-76 and 90-100: append to the list found at the address, or insert
a fresh one-element list. -/
def addToMap (m : FMap ParamIndex ParameterList) (idx : ParamIndex) (p : Parameter) :
    FMap ParamIndex ParameterList :=
  match m idx with
  | some l => m.assign idx (l ++ [p])
  | none => m.insert idx [p]

/-- Body of the inner loop of `registerParams` (lines 29-102) for one
description at one part. -/
def registerDesc (part : Nat) (s : RegState) (desc : Description) : Option RegState :=
  let idx : ParamIndex := ⟨desc.page % 256, part, desc.index⟩
  let r := nextUid s.knownParameterIndices idx
  let uid := r.1
  let p := createParameter s.heapNext desc part uid
  let derived :=
    if uid > 0 then s.derived ++ (s.c.findSynthParam idx).map (fun e => (e, p))
    else s.derived
  let isNonPartExclusive := desc.isNonPartSensitive
  if isNonPartExclusive && part != 0 then
    -- only register on first part!
    match (s.c.m_paramsByParamType 0)[(s.c.m_paramsByParamType part).length]? with
    | none => none
    | some q =>
      some { s with
        c := s.c.pushParam part q
        knownParameterIndices := r.2
        heapNext := s.heapNext + 1
        derived := derived
        discarded := s.discarded ++ [p] }
  else
    let c1 := s.c.pushParam part p
    if p.desc.isPublic then
      -- lifecycle managed by Juce
      let c2 := { c1 with m_synthParams := addToMap c1.m_synthParams idx p }
      if isNonPartExclusive then
        -- jassert(part == 0)
        some { s with
          c := c2
          knownParameterIndices := r.2
          heapNext := s.heapNext + 1
          derived := derived
          globalParams := s.globalParams ++ [p] }
      else
        some { s with
          c := c2
          knownParameterIndices := r.2
          heapNext := s.heapNext + 1
          derived := derived
          group := s.group ++ [p] }
    else
      -- lifecycle handled by us
      let c2 := { c1 with
        m_synthInternalParams := addToMap c1.m_synthInternalParams idx p
        m_synthInternalParamList := c1.m_synthInternalParamList ++ [p] }
      some { s with
        c := c2
        knownParameterIndices := r.2
        heapNext := s.heapNext + 1
        derived := derived }

/-- Body of the outer loop of `registerParams` (lines 22-104) for one part. -/
def registerPart (s : RegState) (part : Nat) : Option RegState :=
  (s.c.m_descriptions.getDescriptions.foldlM (registerDesc part) { s with group := [] }).map
    fun s1 => { s1 with processorGroups := s1.processorGroups ++ [s1.group], group := [] }

/-- The function `Controller::registerParams`. -/
def registerParams (c : Controller) : Option RegState :=
  ((List.range 16).foldlM registerPart (RegState.init c)).map
    fun s => { s with processorGroups := s.processorGroups ++ [s.globalParams] }

/-! ## Closed form of the registration loops

The state `registerParams` has reached after the parts below `p` are complete
and the first `i` rows of part `p` are done, written directly from the table.
The theorems below show that the loops compute exactly this state. -/

/-- Row `j` of the table (the default row outside the table). -/
def descAt (descs : List Description) (j : Nat) : Description :=
  descs.getD j default

/-- Address of row `j` at part `q`. -/
def addrOf (descs : List Description) (q j : Nat) : ParamIndex :=
  ⟨(descAt descs j).page % 256, q, (descAt descs j).index⟩

/-- The rows below `n` that satisfy `f`, in table order. -/
def sel (n : Nat) (f : Nat → Bool) : List Nat :=
  (List.range n).filter f

/-- Number of rows before row `j` that have the address of row `j`. -/
def uidOf (descs : List Description) (j : Nat) : Nat :=
  (sel j fun i => decide (addrOf descs 0 i = addrOf descs 0 j)).length

/-- The instance constructed for row `j` at part `q`. -/
def instAt (descs : List Description) (q j : Nat) : Parameter :=
  ⟨q * descs.length + j, descAt descs j, q, (uidOf descs j : Int)⟩

/-- Whether the instance of row `j` at part `q` is kept (not the aliased case). -/
def retained (descs : List Description) (q j : Nat) : Bool :=
  !((descAt descs j).isNonPartSensitive && q != 0)

/-- The instance stored in slot `j` of the flat list of part `q`. -/
def slotAt (descs : List Description) (q j : Nat) : Parameter :=
  if retained descs q j then instAt descs q j else instAt descs 0 j

/-- Rows of part `q` already processed when the loops stand at `(p, i)`. -/
def lim (descs : List Description) (p i q : Nat) : Nat :=
  if q < p then descs.length else if q = p then i else 0

/-- A map entry for a list: absent when the list is empty. -/
def listToOpt {α : Type} (l : List α) : Option (List α) :=
  match l with
  | [] => none
  | _ :: _ => some l

/-- Public instances registered at address `k` among the first `n` rows of part `q`. -/
def pubAt (descs : List Description) (q n : Nat) (k : ParamIndex) : List Parameter :=
  (sel n fun j => decide (addrOf descs q j = k) && retained descs q j
    && (descAt descs j).isPublic).map (instAt descs q)

/-- Internal instances registered at address `k` among the first `n` rows of part `q`. -/
def intAt (descs : List Description) (q n : Nat) (k : ParamIndex) : List Parameter :=
  (sel n fun j => decide (addrOf descs q j = k) && retained descs q j
    && !(descAt descs j).isPublic).map (instAt descs q)

/-- What `findSynthParam` returns when row `j` of part `q` is reached. -/
def foundAt (descs : List Description) (q j : Nat) : List Parameter :=
  match pubAt descs q j (addrOf descs q j) with
  | [] => intAt descs q j (addrOf descs q j)
  | a :: l => a :: l

/-- Calls of `addDerivedParameter` made by the first `n` rows of part `q`. -/
def linksAt (descs : List Description) (q n : Nat) : List (Parameter × Parameter) :=
  (List.range n).flatMap fun j =>
    if uidOf descs j > 0 then (foundAt descs q j).map fun e => (e, instAt descs q j) else []

/-- Internal instances kept by the first `n` rows of part `q`, in table order. -/
def ownAt (descs : List Description) (q n : Nat) : List Parameter :=
  (sel n fun j => retained descs q j && !(descAt descs j).isPublic).map (instAt descs q)

/-- Instances discarded by the first `n` rows of part `q`. -/
def discAt (descs : List Description) (q n : Nat) : List Parameter :=
  (sel n fun j => !retained descs q j).map (instAt descs q)

/-- Children of the per-part juce group after the first `n` rows of part `q`. -/
def groupAt (descs : List Description) (q n : Nat) : List Parameter :=
  (sel n fun j => retained descs q j && (descAt descs j).isPublic
    && !(descAt descs j).isNonPartSensitive).map (instAt descs q)

/-- Children of the global juce group after the first `n` rows of part `q`. -/
def globalAt (descs : List Description) (q n : Nat) : List Parameter :=
  (sel n fun j => retained descs q j && (descAt descs j).isPublic
    && (descAt descs j).isNonPartSensitive).map (instAt descs q)

/-- The state of the loops of `registerParams` at `(p, i)`. -/
def stateAt (pd : ParameterDescriptions) (p i : Nat) : RegState where
  c :=
    { m_descriptions := pd
      m_paramsByParamType := fun q =>
        (List.range (lim pd.getDescriptions p i q)).map (slotAt pd.getDescriptions q)
      m_synthParams := fun k =>
        listToOpt (pubAt pd.getDescriptions k.part (lim pd.getDescriptions p i k.part) k)
      m_synthInternalParams := fun k =>
        listToOpt (intAt pd.getDescriptions k.part (lim pd.getDescriptions p i k.part) k)
      m_synthInternalParamList :=
        ((List.range p).flatMap fun q => ownAt pd.getDescriptions q pd.getDescriptions.length)
          ++ ownAt pd.getDescriptions p i
      m_pluginMidiOut := [] }
  knownParameterIndices := fun k =>
    match (sel (lim pd.getDescriptions p i k.part) fun j =>
        decide (addrOf pd.getDescriptions k.part j = k)).length with
    | 0 => none
    | n + 1 => some (n : Int)
  heapNext := p * pd.getDescriptions.length + i
  derived :=
    ((List.range p).flatMap fun q => linksAt pd.getDescriptions q pd.getDescriptions.length)
      ++ linksAt pd.getDescriptions p i
  discarded :=
    ((List.range p).flatMap fun q => discAt pd.getDescriptions q pd.getDescriptions.length)
      ++ discAt pd.getDescriptions p i
  globalParams :=
    ((List.range p).flatMap fun q => globalAt pd.getDescriptions q pd.getDescriptions.length)
      ++ globalAt pd.getDescriptions p i
  group := groupAt pd.getDescriptions p i
  processorGroups :=
    (List.range p).map fun q => groupAt pd.getDescriptions q pd.getDescriptions.length

/-- The state `registerParams` returns. -/
def finalState (pd : ParameterDescriptions) : RegState :=
  { stateAt pd 16 0 with
    processorGroups := (stateAt pd 16 0).processorGroups ++ [(stateAt pd 16 0).globalParams] }

/-! ## Packet codec as seen from the controller -/

/-- The member functions of `MidiPacket` that `controller.cpp` calls; their
bodies are not in the sources (`midipacket.h` only declares them). Each takes
the values its reference arguments hold on entry and returns the values they
hold on exit: `create` takes the buffer `_dst`, `parse` the maps `_data` and
`_parameterValues` and the flag `_ignoreChecksumErrors`; `getParameterIndices`
returns the elements of the set it fills from empty, in iteration order. -/
structure PacketCodec where
  create : MidiPacket → Sysex → Data → NamedParamValues → Bool × Sysex
  parse : MidiPacket → Data → ParamValues → ParameterDescriptions → Sysex → Bool →
    Bool × Data × ParamValues
  getParameterIndices : MidiPacket → ParameterDescriptions → List (Nat × Nat)

/-- The processor as the controller sees it: the events handed to
`addMidiEvent`, oldest first. -/
structure Processor where
  midiEvents : List SMidiEvent
deriving DecidableEq, Repr

/-- Modelled from the spec: `Processor::addMidiEvent` is not part of the
sources; the spec has the transport collaborator accept the event for
transmission. -/
def Processor.addMidiEvent (p : Processor) (ev : SMidiEvent) : Processor :=
  ⟨p.midiEvents ++ [ev]⟩

/-- The function `Controller::getMidiPacket`. -/
def Controller.getMidiPacket (c : Controller) (name : String) : Option MidiPacket :=
  c.m_descriptions.getMidiPacket name

/-- The function `Controller::sendSysEx(const pluginLib::SysEx&)`. -/
def Controller.sendSysEx (_c : Controller) (proc : Processor) (msg : Sysex) : Processor :=
  proc.addMidiEvent { sysex := msg, source := MidiEventSource.MidiEventSourceEditor }

/-- Lines 206-214 of `createMidiDataFromPacket`: the loop over the indices.
`valueOf p` is `roundToInt(p->getValueObject().getValue())`, an `int` that the
insertion narrows to the `uint8_t` of the map. -/
def Controller.collectParamValues (c : Controller) (valueOf : Parameter → Int) (part : Nat) :
    List (Nat × Nat) → NamedParamValues → Option NamedParamValues
  | [], paramValues => some paramValues
  | index :: rest, paramValues =>
    match c.getParameter index.2 part with
    | none => none
    | some p =>
      c.collectParamValues valueOf part rest
        (paramValues.insert (index.1, p.desc.name) (valueOf p % 256).toNat)

/-- The function `Controller::createMidiDataFromPacket` in a build where
`assert` compiles to nothing; the result is the returned flag and `_sysex` on
return. -/
def Controller.createMidiDataFromPacket (c : Controller) (codec : PacketCodec)
    (valueOf : Parameter → Int) (sysex : Sysex) (packetName : String) (params : Data)
    (part : Nat) : Bool × Sysex :=
  match c.getMidiPacket packetName with
  | none => (false, sysex)
  | some m =>
    let indices := codec.getParameterIndices m c.m_descriptions
    match c.collectParamValues valueOf part indices FMap.empty with
    | none => (false, sysex)
    | some paramValues =>
      let r := codec.create m sysex params paramValues
      if !r.1 then (false, []) else (true, r.2)

/-- The function `Controller::sendSysEx(_packetName, _params)`; the result is
the returned flag and the processor afterwards. -/
def Controller.sendSysExParams (c : Controller) (codec : PacketCodec)
    (valueOf : Parameter → Int) (proc : Processor) (packetName : String) (params : Data) :
    Bool × Processor :=
  let r := c.createMidiDataFromPacket codec valueOf [] packetName params 0
  if !r.1 then (false, proc) else (true, c.sendSysEx proc r.2)

/-- The function `Controller::sendSysEx(_packetName)`. -/
def Controller.sendSysExName (c : Controller) (codec : PacketCodec)
    (valueOf : Parameter → Int) (proc : Processor) (packetName : String) : Bool × Processor :=
  c.sendSysExParams codec valueOf proc packetName FMap.empty

/-- The function `Controller::parseMidiPacket(const MidiPacket&, ...)`: both maps
are cleared, then the packet parses with the default of
`_ignoreChecksumErrors`. The result is the flag and the two maps on return. -/
def Controller.parseMidiPacket (c : Controller) (codec : PacketCodec) (packet : MidiPacket)
    (_data : Data) (_parameterValues : ParamValues) (src : Sysex) :
    Bool × Data × ParamValues :=
  codec.parse packet FMap.empty FMap.empty c.m_descriptions src true

/-- The function `Controller::parseMidiPacket(const std::string& _name, ...)` in a
build where `assert` compiles to nothing. -/
def Controller.parseMidiPacketByName (c : Controller) (codec : PacketCodec) (name : String)
    (data : Data) (parameterValues : ParamValues) (src : Sysex) :
    Bool × Data × ParamValues :=
  match c.getMidiPacket name with
  | none => (false, data, parameterValues)
  | some m => c.parseMidiPacket codec m data parameterValues src

/-- The loop of `Controller::parseMidiPacket(std::string& _name, ...)` over the
packets still to try; the result is the flag, `_name` and the two maps. -/
def Controller.probePackets (c : Controller) (codec : PacketCodec) (src : Sysex) :
    List (String × MidiPacket) → String → Data → ParamValues →
      Bool × String × Data × ParamValues
  | [], name, data, parameterValues => (false, name, data, parameterValues)
  | packet :: rest, name, data, parameterValues =>
    let r := c.parseMidiPacket codec packet.2 data parameterValues src
    if !r.1 then c.probePackets codec src rest name r.2.1 r.2.2
    else (true, packet.1, r.2.1, r.2.2)

/-- The function `Controller::parseMidiPacket(std::string& _name, ...)`. -/
def Controller.parseMidiPacketIdentify (c : Controller) (codec : PacketCodec) (name : String)
    (data : Data) (parameterValues : ParamValues) (src : Sysex) :
    Bool × String × Data × ParamValues :=
  c.probePackets codec src c.m_descriptions.getMidiPackets name data parameterValues

/-- The function `Controller::addPluginMidiOut` (the lock has no effect in a
sequential run). -/
def Controller.addPluginMidiOut (c : Controller) (events : List SMidiEvent) : Controller :=
  { c with m_pluginMidiOut := c.m_pluginMidiOut ++ events }

/-- The function `Controller::getPluginMidiOut`: swap the queue with the
caller's vector, then clear the queue. The result is the controller and
`_events` on return. -/
def Controller.getPluginMidiOut (c : Controller) (events : List SMidiEvent) :
    Controller × List SMidiEvent :=
  let swapped : Controller × List SMidiEvent :=
    ({ c with m_pluginMidiOut := events }, c.m_pluginMidiOut)
  ({ swapped.1 with m_pluginMidiOut := [] }, swapped.2)

/-! ## Packet codec modelled from the spec

`midipacket.h` declares `create`, `parse`, `getParameterIndices`,
`getByteIndexForType` and `calcChecksum`; their bodies are not part of the
sources. The definitions of this section follow sections 3, 4.1 - 4.4 of the
spec. -/

/-- Modelled from the spec: `MidiPacket::size()` returns `m_byteSize`, which the
constructor (not in the sources) derives; the spec: "derived `byteSize`
(= sequence length)". -/
def MidiPacket.size (p : MidiPacket) : Nat :=
  p.m_definitions.length

/-- Modelled from the spec: `MidiPacket::getByteIndexForType` is declared only;
the spec: a mapping from field type to byte index. `none` is `InvalidIndex`. -/
def MidiPacket.getByteIndexForType (p : MidiPacket) (t : MidiDataType) : Option Nat :=
  match p.m_definitions.findIdx? fun d => d.type = t with
  | some i => some i
  | none => none

/-- Modelled from the spec: `MidiPacket::calcChecksum` is declared only; the
spec: "summing bytes in `[checksumRange.first, checksumRange.last]` modulo 256
starting from `checksumInit`". -/
def MidiPacket.calcChecksum (d : MidiDataDefinition) (src : Sysex) : Nat :=
  (d.checksumInitValue
    + ((src.drop d.checksumFirstIndex).take
        (d.checksumLastIndex + 1 - d.checksumFirstIndex)).sum) % 256

/-- Modelled from the spec: the bits of a parameter value that a Parameter
field writes into its byte ("apply `paramMask`/`paramShift` to extract the
relevant bits and OR them into the byte"; the byte is zero before). -/
def MidiDataDefinition.packParam (d : MidiDataDefinition) (v : Nat) : Nat :=
  ((v &&& d.paramMask) <<< d.paramShift) % 256

/-- Modelled from the spec: the bits a Parameter field reads back from its byte
("extract the masked/shifted bits"). -/
def MidiDataDefinition.unpackParam (d : MidiDataDefinition) (s : Nat) : Nat :=
  (s >>> d.paramShift) &&& d.paramMask

/-- Modelled from the spec: the byte that `create` writes for one field
descriptor before the checksums are patched (spec 4.2); `none` when a
required value is not supplied. A Null field leaves the zero byte of the
fresh buffer, a Checksum field writes the placeholder. -/
def MidiPacket.createField (data : Data) (paramValues : NamedParamValues)
    (d : MidiDataDefinition) : Option Nat :=
  match d.type with
  | MidiDataType.Null => some 0
  | MidiDataType.Byte => some d.byte
  | MidiDataType.Checksum => some 0
  | MidiDataType.Parameter =>
    match paramValues (d.paramPart, d.paramName) with
    | some v => some (d.packParam v)
    | none => none
  | t => data t

/-- Modelled from the spec: the first pass of `create` (spec 4.2): one byte per
field descriptor, in order; `none` as soon as a required value is missing. -/
def MidiPacket.createFields (data : Data) (paramValues : NamedParamValues) :
    List MidiDataDefinition → Option Sysex
  | [] => some []
  | d :: rest =>
    match MidiPacket.createField data paramValues d with
    | none => none
    | some b =>
      match MidiPacket.createFields data paramValues rest with
      | none => none
      | some bytes => some (b :: bytes)

/-- Modelled from the spec: the deferred checksum pass of `create` (spec 4.2):
after all other bytes are written, every Checksum field, in order, is
recomputed over its range and patched into the buffer. `i` is the byte
position of the first descriptor of the list. -/
def MidiPacket.patchChecksums : Nat → List MidiDataDefinition → Sysex → Sysex
  | _, [], buf => buf
  | i, d :: rest, buf =>
    MidiPacket.patchChecksums (i + 1) rest
      (if d.type = MidiDataType.Checksum then buf.set i (MidiPacket.calcChecksum d buf) else buf)

/-- Modelled from the spec: `MidiPacket::create` (spec 4.2). The result is the
returned flag and `_dst` on return; on failure the buffer is cleared. -/
def MidiPacket.create (p : MidiPacket) (_dst : Sysex) (data : Data)
    (paramValues : NamedParamValues) : Bool × Sysex :=
  match MidiPacket.createFields data paramValues p.m_definitions with
  | none => (false, [])
  | some bytes => (true, MidiPacket.patchChecksums 0 p.m_definitions bytes)

/-- Modelled from the spec: the part of a Parameter field on decode (spec 4.3):
"literal `paramPart` if not wildcard, else the part extracted elsewhere in
this same buffer", that is the byte at the position of the Part field. The
spec is silent on a wildcard field in a packet without a Part field; no part
is extracted there, so the field keeps the wildcard as its part. -/
def MidiPacket.effectivePart (p : MidiPacket) (src : Sysex) (d : MidiDataDefinition) :
    Option Nat :=
  if d.paramPart ≠ AnyPart then some d.paramPart
  else
    match p.getByteIndexForType MidiDataType.Part with
    | some i => src[i]?
    | none => some AnyPart

/-- Modelled from the spec: the key of `ParamValues` a Parameter field decodes
to (spec 4.3): the effective part and the index of `paramName` in the
description table; `none` when either cannot be resolved (spec 7: a named
parameter that does not exist is a boolean failure). -/
def MidiPacket.resolveParam (p : MidiPacket) (parameters : ParameterDescriptions)
    (src : Sysex) (d : MidiDataDefinition) : Option (Nat × Nat) :=
  match p.effectivePart src d, parameters.getIndexByName d.paramName with
  | some part, some idx => some (part, idx)
  | _, _ => none

/-- Modelled from the spec: what `parse` does at one byte position (spec 4.3);
`none` fails the whole parse. A Parameter field ORs its bits into the value
already stored at its key (zero when there is none): the spec has several
fields carry one parameter ("multiple fields per parameter, e.g. high/low
nibble split"), which only a combining store decodes. -/
def MidiPacket.parseField (p : MidiPacket) (parameters : ParameterDescriptions) (src : Sysex)
    (ignoreChecksumErrors : Bool) (acc : Data × ParamValues) (e : MidiDataDefinition × Nat) :
    Option (Data × ParamValues) :=
  match e.1.type with
  | MidiDataType.Null => some acc
  | MidiDataType.Byte => if e.1.byte = e.2 then some acc else none
  | MidiDataType.Checksum =>
    if MidiPacket.calcChecksum e.1 src = e.2 then some acc
    else if ignoreChecksumErrors then some acc else none
  | MidiDataType.Parameter =>
    match p.resolveParam parameters src e.1 with
    | some k => some (acc.1, acc.2.assign k ((acc.2 k).getD 0 ||| e.1.unpackParam e.2))
    | none => none
  | t => some (acc.1.assign t e.2, acc.2)

/-- Modelled from the spec: `MidiPacket::parse` (spec 4.3). The result is the
returned flag and the two maps on return; failure leaves them cleared. -/
def MidiPacket.parse (p : MidiPacket) (data : Data) (parameterValues : ParamValues)
    (parameters : ParameterDescriptions) (src : Sysex) (ignoreChecksumErrors : Bool) :
    Bool × Data × ParamValues :=
  if src.length ≠ p.size then (false, FMap.empty, FMap.empty)
  else
    match (p.m_definitions.zip src).foldlM
        (p.parseField parameters src ignoreChecksumErrors) (data, parameterValues) with
    | none => (false, FMap.empty, FMap.empty)
    | some r => (true, r.1, r.2)

/-- What `parse` checks of a buffer apart from its checksums (spec 4.3): the
length, the literal of every Byte field and that every Parameter field
resolves. -/
def MidiPacket.passesWithoutChecksums (p : MidiPacket) (parameters : ParameterDescriptions)
    (src : Sysex) : Bool :=
  decide (src.length = p.size) &&
    (p.m_definitions.zip src).all fun e =>
      (e.1.type != MidiDataType.Byte || decide (e.1.byte = e.2)) &&
      (e.1.type != MidiDataType.Parameter || (p.resolveParam parameters src e.1).isSome)

/-- Insertion into a `std::set` of pairs: kept sorted, no duplicates. -/
def setInsert (k : Nat × Nat) : List (Nat × Nat) → List (Nat × Nat)
  | [] => [k]
  | x :: rest =>
    if k = x then x :: rest
    else if k.1 < x.1 ∨ (k.1 = x.1 ∧ k.2 < x.2) then k :: x :: rest
    else x :: setInsert k rest

/-- Modelled from the spec: `MidiPacket::getParameterIndices` (spec 4.4): the
set of (part, index) pairs of the Parameter fields whose name is in the
description table. -/
def MidiPacket.getParameterIndices (p : MidiPacket) (parameters : ParameterDescriptions) :
    List (Nat × Nat) :=
  p.m_definitions.foldl
    (fun acc d =>
      if d.type = MidiDataType.Parameter then
        match parameters.getIndexByName d.paramName with
        | some idx => setInsert (d.paramPart, idx) acc
        | none => acc
      else acc)
    []

/-- The codec of the spec as the controller calls it. -/
def specCodec : PacketCodec where
  create := MidiPacket.create
  parse := MidiPacket.parse
  getParameterIndices := MidiPacket.getParameterIndices

/-! ## Sample inputs -/

/-- The packet of the scenario of the spec (section 8):
`{Byte(0xF0), Byte(0x18), Part, ParameterIndex, ParameterValue, Checksum(range=[2,4], init=0)}`. -/
def scenarioPacket : MidiPacket where
  m_name := "singleParam"
  m_definitions :=
    [ { type := MidiDataType.Byte, byte := 0xF0 },
      { type := MidiDataType.Byte, byte := 0x18 },
      { type := MidiDataType.Part },
      { type := MidiDataType.ParameterIndex },
      { type := MidiDataType.ParameterValue },
      { type := MidiDataType.Checksum, checksumFirstIndex := 2, checksumLastIndex := 4 } ]

/-- The values of the scenario: Part = 3, ParameterIndex = 10, ParameterValue = 64. -/
def scenarioData : Data :=
  ((FMap.empty.insert MidiDataType.Part 3).insert MidiDataType.ParameterIndex 10).insert
    MidiDataType.ParameterValue 64

/-- A packet that carries one parameter of any part. -/
def cutoffPacket : MidiPacket where
  m_name := "cutoffDump"
  m_definitions :=
    [ { type := MidiDataType.Byte, byte := 0xF0 },
      { type := MidiDataType.Part },
      { type := MidiDataType.Parameter, paramName := "cutoff", paramMask := 0x7f },
      { type := MidiDataType.Checksum, checksumFirstIndex := 1, checksumLastIndex := 2 } ]

/-- Values for `cutoffPacket`: the wildcard-part parameter "cutoff" is 100. -/
def cutoffValues : NamedParamValues :=
  FMap.empty.insert (AnyPart, "cutoff") 100

/-- A packet whose two checksums cover each other. -/
def crossChecksumPacket : MidiPacket where
  m_name := "crossChecksum"
  m_definitions :=
    [ { type := MidiDataType.Checksum, checksumFirstIndex := 1, checksumLastIndex := 1,
        checksumInitValue := 1 },
      { type := MidiDataType.Checksum, checksumFirstIndex := 0, checksumLastIndex := 0,
        checksumInitValue := 1 } ]

/-- A table with two rows at one address (a public part-sensitive control and
its internal layer) and one shared control, and three packets. -/
def sampleDescriptions : ParameterDescriptions where
  descriptions :=
    [ { page := 1, index := 5, name := "cutoff", isPublic := true, isNonPartSensitive := false },
      { page := 1, index := 5, name := "cutoffLayer", isPublic := false,
        isNonPartSensitive := false },
      { page := 2, index := 0, name := "masterVolume", isPublic := true,
        isNonPartSensitive := true } ]
  midiPackets :=
    [ ("crossChecksum", crossChecksumPacket),
      ("cutoffDump", cutoffPacket),
      ("singleParam", scenarioPacket) ]

/-! ## Intermediate states and further sample inputs -/

/-- The state of `registerParams` when the inner loop of part `p` is about to
run row `i`: the outer loop has completed the parts below `p` (lines 20-105),
the group of part `p` has been made and the inner loop has done the first `i`
rows of the table. -/
def loopState (c : Controller) (p i : Nat) : Option RegState :=
  ((List.range p).foldlM registerPart (RegState.init c)).bind fun s =>
    (s.c.m_descriptions.getDescriptions.take i).foldlM (registerDesc p) { s with group := [] }

/-- A table with a single shared (non-part-sensitive) control. -/
def sharedOnlyDescriptions : ParameterDescriptions where
  descriptions :=
    [ { page := 2, index := 0, name := "masterVolume", isPublic := true,
        isNonPartSensitive := true } ]

/-- A table with two rows at one address: a part-sensitive control followed by
a shared (non-part-sensitive) one. -/
def mixedSensitivityDescriptions : ParameterDescriptions where
  descriptions :=
    [ { page := 1, index := 5, name := "cutoff", isPublic := true, isNonPartSensitive := false },
      { page := 1, index := 5, name := "cutoffAll", isPublic := true,
        isNonPartSensitive := true } ]

/-! ## Theorems -/

theorem sel_succ (n : Nat) (f : Nat → Bool) :
    sel (n + 1) f = sel n f ++ (if f n then [n] else []) := by
  unfold sel
  rw [List.range_succ, List.filter_append]
  by_cases h : f n <;> simp [h]

theorem sel_zero (f : Nat → Bool) : sel 0 f = [] := by
  simp [sel]

theorem mem_sel {n : Nat} {f : Nat → Bool} {j : Nat} : j ∈ sel n f ↔ j < n ∧ f j = true := by
  simp [sel]

theorem lim_self (descs : List Description) (p i : Nat) : lim descs p i p = i := by
  simp [lim]

theorem lim_succ (descs : List Description) (p i q : Nat) :
    lim descs p (i + 1) q = if q = p then i + 1 else lim descs p i q := by
  unfold lim
  by_cases h1 : q < p
  · have : q ≠ p := by omega
    simp [h1, this]
  · by_cases h2 : q = p <;> simp [h1, h2]

theorem lim_next (descs : List Description) (p q : Nat) :
    lim descs (p + 1) 0 q = lim descs p descs.length q := by
  unfold lim
  by_cases h1 : q < p
  · have : q < p + 1 := by omega
    simp [h1, this]
  · by_cases h2 : q = p
    · subst h2; simp
    · have h3 : ¬ q < p + 1 := by omega
      simp [h1, h2, h3]

theorem lim_zero (descs : List Description) (q : Nat) : lim descs 0 0 q = 0 := by
  unfold lim
  by_cases h : q = 0 <;> simp [h]

theorem addrOf_eq_iff (descs : List Description) (q i j : Nat) :
    addrOf descs q i = addrOf descs q j ↔ addrOf descs 0 i = addrOf descs 0 j := by
  simp [addrOf]

theorem addrOf_part (descs : List Description) (q j : Nat) : (addrOf descs q j).part = q := rfl

theorem listToOpt_eq_none {α : Type} (l : List α) : listToOpt l = none ↔ l = [] := by
  cases l <;> simp [listToOpt]

theorem listToOpt_eq_some {α : Type} (l m : List α) : listToOpt l = some m ↔ l = m ∧ l ≠ [] := by
  cases l <;> simp [listToOpt]

theorem listToOpt_append_singleton {α : Type} (l : List α) (a : α) :
    listToOpt (l ++ [a]) = some (l ++ [a]) := by
  cases l <;> simp [listToOpt]

/-- The counter stored for the address of row `i` when the loop reaches it. -/
theorem nextUid_stateAt (pd : ParameterDescriptions) (p i : Nat) :
    nextUid (stateAt pd p i).knownParameterIndices (addrOf pd.getDescriptions p i)
      = ((uidOf pd.getDescriptions i : Int), (stateAt pd p (i + 1)).knownParameterIndices) := by
  have hcnt : (sel i fun j => decide (addrOf pd.getDescriptions p j = addrOf pd.getDescriptions p i)).length
      = uidOf pd.getDescriptions i := by
    unfold uidOf
    congr 2
    funext j
    simp [addrOf_eq_iff pd.getDescriptions p j i]
  have hnew : (stateAt pd p (i + 1)).knownParameterIndices
      = FMap.assign (stateAt pd p i).knownParameterIndices (addrOf pd.getDescriptions p i)
          (uidOf pd.getDescriptions i : Int) := by
    funext k
    simp only [stateAt, FMap.assign]
    by_cases hk : k = addrOf pd.getDescriptions p i
    · subst hk
      simp only [addrOf_part, lim_self, if_true, sel_succ, decide_True, List.length_append,
        hcnt, List.length_singleton]
    · simp only [hk, if_false, lim_succ]
      by_cases hp : k.part = p
      · subst hp
        have : ¬ addrOf pd.getDescriptions k.part i = k := fun h => hk h.symm
        simp [sel_succ, this, lim_self]
      · simp [hp]
  rw [hnew]
  unfold nextUid
  have hk : (stateAt pd p i).knownParameterIndices (addrOf pd.getDescriptions p i)
      = match uidOf pd.getDescriptions i with
        | 0 => none
        | n + 1 => some (n : Int) := by
    simp only [stateAt, addrOf_part, lim_self, hcnt]
  rw [hk]
  cases hu : uidOf pd.getDescriptions i with
  | zero =>
    simp only [FMap.insert, hk, hu]
    rfl
  | succ n =>
    simp only [Nat.cast_succ]

/-- What `findSynthParam` returns for the address of row `i` when the loop reaches it. -/
theorem findSynthParam_stateAt (pd : ParameterDescriptions) (p i : Nat) :
    (stateAt pd p i).c.findSynthParam (addrOf pd.getDescriptions p i)
      = foundAt pd.getDescriptions p i := by
  simp only [Controller.findSynthParam, stateAt, addrOf_part, lim_self, foundAt]
  cases h1 : pubAt pd.getDescriptions p i (addrOf pd.getDescriptions p i) with
  | nil =>
    simp only [listToOpt]
    cases h2 : intAt pd.getDescriptions p i (addrOf pd.getDescriptions p i) <;> simp [listToOpt]
  | cons a l => simp [listToOpt]

/-- Appending to the list found at an address, or inserting a new list, is
appending to the list of the closed form. -/
theorem addToMap_listToOpt (f : ParamIndex → List Parameter) (idx : ParamIndex) (x : Parameter) :
    addToMap (fun k => listToOpt (f k)) idx x
      = fun k => listToOpt (if k = idx then f k ++ [x] else f k) := by
  funext k
  unfold addToMap
  cases h : f idx with
  | nil =>
    simp only [h, listToOpt, FMap.insert]
    by_cases hk : k = idx
    · subst hk; simp [h, listToOpt]
    · simp [hk]
  | cons a l =>
    simp only [h, listToOpt, FMap.assign]
    by_cases hk : k = idx
    · subst hk; simp [h, listToOpt]
    · simp [hk]

theorem pubAt_succ (descs : List Description) (q n : Nat) (k : ParamIndex) :
    pubAt descs q (n + 1) k
      = if addrOf descs q n = k ∧ retained descs q n = true ∧ (descAt descs n).isPublic = true
        then pubAt descs q n k ++ [instAt descs q n] else pubAt descs q n k := by
  unfold pubAt
  rw [sel_succ]
  by_cases h1 : addrOf descs q n = k <;> by_cases h2 : retained descs q n = true <;>
    by_cases h3 : (descAt descs n).isPublic = true <;> simp [h1, h2, h3]

theorem intAt_succ (descs : List Description) (q n : Nat) (k : ParamIndex) :
    intAt descs q (n + 1) k
      = if addrOf descs q n = k ∧ retained descs q n = true ∧ (descAt descs n).isPublic = false
        then intAt descs q n k ++ [instAt descs q n] else intAt descs q n k := by
  unfold intAt
  rw [sel_succ]
  by_cases h1 : addrOf descs q n = k <;> by_cases h2 : retained descs q n = true <;>
    by_cases h3 : (descAt descs n).isPublic = true <;> simp [h1, h2, h3]

theorem params_succ (pd : ParameterDescriptions) (p i : Nat) :
    (stateAt pd p (i + 1)).c.m_paramsByParamType
      = fun q => if q = p then (stateAt pd p i).c.m_paramsByParamType q
          ++ [slotAt pd.getDescriptions p i] else (stateAt pd p i).c.m_paramsByParamType q := by
  funext q
  simp only [stateAt, lim_succ]
  by_cases h : q = p
  · subst h; simp [lim_self, List.range_succ]
  · simp [h]

theorem synthParams_succ (pd : ParameterDescriptions) (p i : Nat) :
    (stateAt pd p (i + 1)).c.m_synthParams
      = if retained pd.getDescriptions p i = true ∧ (descAt pd.getDescriptions i).isPublic = true
        then addToMap (stateAt pd p i).c.m_synthParams (addrOf pd.getDescriptions p i)
          (instAt pd.getDescriptions p i)
        else (stateAt pd p i).c.m_synthParams := by
  have hstep : ∀ k : ParamIndex,
      pubAt pd.getDescriptions k.part (lim pd.getDescriptions p (i + 1) k.part) k
        = if k = addrOf pd.getDescriptions p i ∧ retained pd.getDescriptions p i = true
              ∧ (descAt pd.getDescriptions i).isPublic = true
          then pubAt pd.getDescriptions k.part (lim pd.getDescriptions p i k.part) k
            ++ [instAt pd.getDescriptions p i]
          else pubAt pd.getDescriptions k.part (lim pd.getDescriptions p i k.part) k := by
    intro k
    rw [lim_succ]
    by_cases hp : k.part = p
    · subst hp
      simp only [if_true, lim_self, pubAt_succ]
      have : (addrOf pd.getDescriptions k.part i = k) ↔ (k = addrOf pd.getDescriptions k.part i) :=
        eq_comm
      simp only [this]
    · have : k ≠ addrOf pd.getDescriptions p i := fun h => hp (by rw [h]; rfl)
      simp [hp, this]
  by_cases hr : retained pd.getDescriptions p i = true ∧ (descAt pd.getDescriptions i).isPublic = true
  · rw [if_pos hr]
    simp only [stateAt]
    rw [addToMap_listToOpt]
    funext k
    rw [hstep k]
    by_cases hk : k = addrOf pd.getDescriptions p i
    · simp [hk, hr.1, hr.2, addrOf_part, lim_self]
    · simp [hk]
  · rw [if_neg hr]
    simp only [stateAt]
    funext k
    rw [hstep k]
    have : ¬ (k = addrOf pd.getDescriptions p i ∧ retained pd.getDescriptions p i = true
        ∧ (descAt pd.getDescriptions i).isPublic = true) := fun h => hr h.2
    rw [if_neg this]

theorem synthInternalParams_succ (pd : ParameterDescriptions) (p i : Nat) :
    (stateAt pd p (i + 1)).c.m_synthInternalParams
      = if retained pd.getDescriptions p i = true ∧ (descAt pd.getDescriptions i).isPublic = false
        then addToMap (stateAt pd p i).c.m_synthInternalParams (addrOf pd.getDescriptions p i)
          (instAt pd.getDescriptions p i)
        else (stateAt pd p i).c.m_synthInternalParams := by
  have hstep : ∀ k : ParamIndex,
      intAt pd.getDescriptions k.part (lim pd.getDescriptions p (i + 1) k.part) k
        = if k = addrOf pd.getDescriptions p i ∧ retained pd.getDescriptions p i = true
              ∧ (descAt pd.getDescriptions i).isPublic = false
          then intAt pd.getDescriptions k.part (lim pd.getDescriptions p i k.part) k
            ++ [instAt pd.getDescriptions p i]
          else intAt pd.getDescriptions k.part (lim pd.getDescriptions p i k.part) k := by
    intro k
    rw [lim_succ]
    by_cases hp : k.part = p
    · subst hp
      simp only [if_true, lim_self, intAt_succ]
      have : (addrOf pd.getDescriptions k.part i = k) ↔ (k = addrOf pd.getDescriptions k.part i) :=
        eq_comm
      simp only [this]
    · have : k ≠ addrOf pd.getDescriptions p i := fun h => hp (by rw [h]; rfl)
      simp [hp, this]
  by_cases hr : retained pd.getDescriptions p i = true ∧ (descAt pd.getDescriptions i).isPublic = false
  · rw [if_pos hr]
    simp only [stateAt]
    rw [addToMap_listToOpt]
    funext k
    rw [hstep k]
    by_cases hk : k = addrOf pd.getDescriptions p i
    · simp [hk, hr.1, hr.2, addrOf_part, lim_self]
    · simp [hk]
  · rw [if_neg hr]
    simp only [stateAt]
    funext k
    rw [hstep k]
    have : ¬ (k = addrOf pd.getDescriptions p i ∧ retained pd.getDescriptions p i = true
        ∧ (descAt pd.getDescriptions i).isPublic = false) := fun h => hr h.2
    rw [if_neg this]

theorem ownAt_succ (descs : List Description) (q n : Nat) :
    ownAt descs q (n + 1)
      = if retained descs q n = true ∧ (descAt descs n).isPublic = false
        then ownAt descs q n ++ [instAt descs q n] else ownAt descs q n := by
  unfold ownAt
  rw [sel_succ]
  by_cases h2 : retained descs q n = true <;>
    by_cases h3 : (descAt descs n).isPublic = true <;> simp [h2, h3]

theorem discAt_succ (descs : List Description) (q n : Nat) :
    discAt descs q (n + 1)
      = if retained descs q n = false
        then discAt descs q n ++ [instAt descs q n] else discAt descs q n := by
  unfold discAt
  rw [sel_succ]
  by_cases h2 : retained descs q n = true <;> simp [h2]

theorem groupAt_succ (descs : List Description) (q n : Nat) :
    groupAt descs q (n + 1)
      = if retained descs q n = true ∧ (descAt descs n).isPublic = true
            ∧ (descAt descs n).isNonPartSensitive = false
        then groupAt descs q n ++ [instAt descs q n] else groupAt descs q n := by
  unfold groupAt
  rw [sel_succ]
  by_cases h2 : retained descs q n = true <;>
    by_cases h3 : (descAt descs n).isPublic = true <;>
    by_cases h4 : (descAt descs n).isNonPartSensitive = true <;> simp [h2, h3, h4]

theorem globalAt_succ (descs : List Description) (q n : Nat) :
    globalAt descs q (n + 1)
      = if retained descs q n = true ∧ (descAt descs n).isPublic = true
            ∧ (descAt descs n).isNonPartSensitive = true
        then globalAt descs q n ++ [instAt descs q n] else globalAt descs q n := by
  unfold globalAt
  rw [sel_succ]
  by_cases h2 : retained descs q n = true <;>
    by_cases h3 : (descAt descs n).isPublic = true <;>
    by_cases h4 : (descAt descs n).isNonPartSensitive = true <;> simp [h2, h3, h4]

theorem linksAt_succ (descs : List Description) (q n : Nat) :
    linksAt descs q (n + 1)
      = linksAt descs q n ++
        (if uidOf descs n > 0 then (foundAt descs q n).map fun e => (e, instAt descs q n)
         else []) := by
  unfold linksAt
  rw [List.range_succ, List.flatMap_append]
  simp

theorem RegState.eq_of_fields {a b : RegState}
    (h1 : a.c.m_descriptions = b.c.m_descriptions)
    (h2 : a.c.m_paramsByParamType = b.c.m_paramsByParamType)
    (h3 : a.c.m_synthParams = b.c.m_synthParams)
    (h4 : a.c.m_synthInternalParams = b.c.m_synthInternalParams)
    (h5 : a.c.m_synthInternalParamList = b.c.m_synthInternalParamList)
    (h6 : a.knownParameterIndices = b.knownParameterIndices)
    (h7 : a.heapNext = b.heapNext)
    (h8 : a.derived = b.derived)
    (h9 : a.discarded = b.discarded)
    (h10 : a.globalParams = b.globalParams)
    (h11 : a.group = b.group)
    (h12 : a.processorGroups = b.processorGroups)
    (h13 : a.c.m_pluginMidiOut = b.c.m_pluginMidiOut) : a = b := by
  cases a with
  | mk ac _ _ _ _ _ _ _ =>
    cases b with
    | mk bc _ _ _ _ _ _ _ =>
      cases ac
      cases bc
      simp only at h1 h2 h3 h4 h5 h6 h7 h8 h9 h10 h11 h12 h13
      subst h1 h2 h3 h4 h5 h6 h7 h8 h9 h10 h11 h12 h13
      rfl

theorem retained_eq (descs : List Description) (q j : Nat) :
    retained descs q j = !((descAt descs j).isNonPartSensitive && q != 0) := rfl

/-- One turn of the inner loop takes the closed form at `(p, i)` to the closed
form at `(p, i + 1)`; in particular the aliasing read is in range. -/
theorem registerDesc_stateAt (pd : ParameterDescriptions) (p i : Nat)
    (hi : i < pd.getDescriptions.length) :
    registerDesc p (stateAt pd p i) (descAt pd.getDescriptions i)
      = some (stateAt pd p (i + 1)) := by
  have hidx : (⟨(descAt pd.getDescriptions i).page % 256, p,
      (descAt pd.getDescriptions i).index⟩ : ParamIndex) = addrOf pd.getDescriptions p i := rfl
  have hnew : createParameter (stateAt pd p i).heapNext (descAt pd.getDescriptions i) p
      (uidOf pd.getDescriptions i : Int) = instAt pd.getDescriptions p i := rfl
  have hder : (stateAt pd p (i + 1)).derived
      = if (uidOf pd.getDescriptions i : Int) > 0
        then (stateAt pd p i).derived ++ (foundAt pd.getDescriptions p i).map
          fun e => (e, instAt pd.getDescriptions p i)
        else (stateAt pd p i).derived := by
    simp only [stateAt, linksAt_succ]
    by_cases hu : uidOf pd.getDescriptions i > 0
    · have : (uidOf pd.getDescriptions i : Int) > 0 := by exact_mod_cast hu
      simp [hu, this]
    · have : ¬ (uidOf pd.getDescriptions i : Int) > 0 := by exact_mod_cast hu
      simp [hu, this]
  unfold registerDesc
  simp only [hidx, nextUid_stateAt, findSynthParam_stateAt, hnew]
  rw [← hder]
  by_cases hn : (descAt pd.getDescriptions i).isNonPartSensitive = true
  · by_cases hp : p = 0
    · -- part 0 of a shared parameter: registered
      subst hp
      have hr : retained pd.getDescriptions 0 i = true := by simp [retained_eq]
      have hs : slotAt pd.getDescriptions 0 i = instAt pd.getDescriptions 0 i := by
        simp [slotAt, hr]
      have hd : (instAt pd.getDescriptions 0 i).desc = descAt pd.getDescriptions i := rfl
      simp only [hn, bne_self_eq_false, Bool.and_false, Bool.false_eq_true, if_false, hd]
      by_cases hpub : (descAt pd.getDescriptions i).isPublic = true
      · simp only [hpub, if_true]
        apply congrArg some
        apply RegState.eq_of_fields
        · rfl
        · simp [params_succ, Controller.pushParam, hs]
        · simp [synthParams_succ, hr, hpub, Controller.pushParam]
        · simp [synthInternalParams_succ, hr, hpub, Controller.pushParam]
        · simp [stateAt, ownAt_succ, hpub, Controller.pushParam]
        · rfl
        · simp only [stateAt]; ring
        · rfl
        · simp [stateAt, discAt_succ, hr]
        · simp [stateAt, globalAt_succ, hr, hpub, hn]
        · simp [stateAt, groupAt_succ, hn]
        · rfl
        · rfl
      · have hpub' : (descAt pd.getDescriptions i).isPublic = false := by simpa using hpub
        simp only [hpub', Bool.false_eq_true, if_false]
        apply congrArg some
        apply RegState.eq_of_fields
        · rfl
        · simp [params_succ, Controller.pushParam, hs]
        · simp [synthParams_succ, hr, hpub', Controller.pushParam]
        · simp [synthInternalParams_succ, hr, hpub', Controller.pushParam]
        · simp [stateAt, ownAt_succ, hpub', hr, Controller.pushParam]
        · rfl
        · simp only [stateAt]; ring
        · rfl
        · simp [stateAt, discAt_succ, hr]
        · simp [stateAt, globalAt_succ, hr, hpub', hn]
        · simp [stateAt, groupAt_succ, hn]
        · rfl
        · rfl
    · -- other parts of a shared parameter: alias the slot of part 0
      have hr : retained pd.getDescriptions p i = false := by simp [retained_eq, hn, hp]
      have hs : slotAt pd.getDescriptions p i = instAt pd.getDescriptions 0 i := by
        simp [slotAt, hr]
      have hr0 : retained pd.getDescriptions 0 i = true := by simp [retained_eq]
      have hp' : (p != 0) = true := by simpa using hp
      have hread : ((stateAt pd p i).c.m_paramsByParamType 0)[
          ((stateAt pd p i).c.m_paramsByParamType p).length]?
            = some (instAt pd.getDescriptions 0 i) := by
        have h0 : lim pd.getDescriptions p i 0 = pd.getDescriptions.length := by
          have : 0 < p := Nat.pos_of_ne_zero hp
          simp [lim, this]
        simp only [stateAt, lim_self, h0, List.length_map, List.length_range, List.getElem?_map]
        rw [List.getElem?_range hi]
        simp [slotAt, hr0]
      simp only [hn, hp', Bool.and_self, if_true, hread]
      apply congrArg some
      apply RegState.eq_of_fields
      · rfl
      · simp [params_succ, Controller.pushParam, hs]
      · simp [synthParams_succ, hr, Controller.pushParam]
      · simp [synthInternalParams_succ, hr, Controller.pushParam]
      · simp [stateAt, ownAt_succ, hr, Controller.pushParam]
      · rfl
      · simp only [stateAt]; ring
      · rfl
      · simp [stateAt, discAt_succ, hr]
      · simp [stateAt, globalAt_succ, hr]
      · simp [stateAt, groupAt_succ, hr]
      · rfl
      · rfl
  · have hn' : (descAt pd.getDescriptions i).isNonPartSensitive = false := by simpa using hn
    have hr : retained pd.getDescriptions p i = true := by simp [retained_eq, hn']
    have hs : slotAt pd.getDescriptions p i = instAt pd.getDescriptions p i := by
      simp [slotAt, hr]
    have hd : (instAt pd.getDescriptions p i).desc = descAt pd.getDescriptions i := rfl
    simp only [hn', Bool.false_and, Bool.false_eq_true, if_false, hd]
    by_cases hpub : (descAt pd.getDescriptions i).isPublic = true
    · simp only [hpub, if_true]
      apply congrArg some
      apply RegState.eq_of_fields
      · rfl
      · simp [params_succ, Controller.pushParam, hs]
      · simp [synthParams_succ, hr, hpub, Controller.pushParam]
      · simp [synthInternalParams_succ, hr, hpub, Controller.pushParam]
      · simp [stateAt, ownAt_succ, hpub, Controller.pushParam]
      · rfl
      · simp only [stateAt]; ring
      · rfl
      · simp [stateAt, discAt_succ, hr]
      · simp [stateAt, globalAt_succ, hn']
      · simp [stateAt, groupAt_succ, hr, hpub, hn']
      · rfl
      · rfl
    · have hpub' : (descAt pd.getDescriptions i).isPublic = false := by simpa using hpub
      simp only [hpub', Bool.false_eq_true, if_false]
      apply congrArg some
      apply RegState.eq_of_fields
      · rfl
      · simp [params_succ, Controller.pushParam, hs]
      · simp [synthParams_succ, hr, hpub', Controller.pushParam]
      · simp [synthInternalParams_succ, hr, hpub', Controller.pushParam]
      · simp [stateAt, ownAt_succ, hpub', hr, Controller.pushParam]
      · rfl
      · simp only [stateAt]; ring
      · rfl
      · simp [stateAt, discAt_succ, hr]
      · simp [stateAt, globalAt_succ, hn']
      · simp [stateAt, groupAt_succ, hpub']
      · rfl
      · rfl

/-- The inner loop over the first `i` rows of the table. -/
theorem foldlM_registerDesc_take (pd : ParameterDescriptions) (p i : Nat)
    (hi : i ≤ pd.getDescriptions.length) :
    (pd.getDescriptions.take i).foldlM (registerDesc p) (stateAt pd p 0)
      = some (stateAt pd p i) := by
  induction i with
  | zero => simp
  | succ n ih =>
    have hn : n < pd.getDescriptions.length := hi
    rw [List.take_succ, List.foldlM_append, ih (Nat.le_of_lt hn),
      List.getElem?_eq_getElem hn]
    have hd : pd.getDescriptions[n] = descAt pd.getDescriptions n := by
      unfold descAt
      rw [List.getD_eq_getElem _ _ hn]
    simp only [Option.toList, hd, List.foldlM_cons, List.foldlM_nil, Option.some_bind,
      Option.bind_eq_bind]
    rw [registerDesc_stateAt pd p n hn]
    rfl

/-- One turn of the outer loop. -/
theorem registerPart_stateAt (pd : ParameterDescriptions) (p : Nat) :
    registerPart (stateAt pd p 0) p = some (stateAt pd (p + 1) 0) := by
  have hg : ({ stateAt pd p 0 with group := [] } : RegState) = stateAt pd p 0 := by
    apply RegState.eq_of_fields <;> rfl
  have hd : (stateAt pd p 0).c.m_descriptions.getDescriptions = pd.getDescriptions := rfl
  unfold registerPart
  rw [hg, hd]
  have h := foldlM_registerDesc_take pd p pd.getDescriptions.length (Nat.le_refl _)
  rw [List.take_length] at h
  rw [h]
  simp only [Option.map_some']
  apply congrArg some
  apply RegState.eq_of_fields
  · rfl
  · funext q; simp [stateAt, lim_next]
  · funext k; simp [stateAt, lim_next]
  · funext k; simp [stateAt, lim_next]
  · simp [stateAt, List.range_succ, List.flatMap_append, ownAt, sel_zero]
  · funext k; simp [stateAt, lim_next]
  · simp only [stateAt]; ring
  · simp [stateAt, List.range_succ, List.flatMap_append, linksAt]
  · simp [stateAt, List.range_succ, List.flatMap_append, discAt, sel_zero]
  · simp [stateAt, List.range_succ, List.flatMap_append, globalAt, sel_zero]
  · simp [stateAt, groupAt, sel_zero]
  · simp [stateAt, List.range_succ]
  · rfl

/-- The outer loop over the first `p` parts. -/
theorem foldlM_registerPart_range (pd : ParameterDescriptions) (p : Nat) :
    (List.range p).foldlM registerPart (stateAt pd 0 0) = some (stateAt pd p 0) := by
  induction p with
  | zero => simp
  | succ n ih =>
    rw [List.range_succ, List.foldlM_append, ih]
    simp only [List.foldlM_cons, List.foldlM_nil, Option.some_bind, Option.bind_eq_bind]
    rw [registerPart_stateAt]
    rfl

theorem init_eq_stateAt (pd : ParameterDescriptions) :
    RegState.init (Controller.new pd) = stateAt pd 0 0 := by
  apply RegState.eq_of_fields
  · rfl
  · funext q; simp [stateAt, RegState.init, Controller.new, lim_zero]
  · funext k; simp [stateAt, RegState.init, Controller.new, lim_zero, pubAt, sel_zero, listToOpt,
      FMap.empty]
  · funext k; simp [stateAt, RegState.init, Controller.new, lim_zero, intAt, sel_zero, listToOpt,
      FMap.empty]
  · simp [stateAt, RegState.init, Controller.new, ownAt, sel_zero]
  · funext k; simp [stateAt, RegState.init, lim_zero, sel_zero, FMap.empty]
  · simp [stateAt, RegState.init]
  · simp [stateAt, RegState.init, linksAt]
  · simp [stateAt, RegState.init, discAt, sel_zero]
  · simp [stateAt, RegState.init, globalAt, sel_zero]
  · simp [stateAt, RegState.init, groupAt, sel_zero]
  · simp [stateAt, RegState.init]
  · rfl

/-- The function `registerParams` is total on a freshly constructed controller
and returns the closed form. -/
theorem registerParams_eq (pd : ParameterDescriptions) :
    registerParams (Controller.new pd) = some (finalState pd) := by
  unfold registerParams
  rw [init_eq_stateAt, foldlM_registerPart_range]
  rfl

/-! ### The registry after `registerParams` -/

theorem lim_final (descs : List Description) (q : Nat) :
    lim descs 16 0 q = if q < 16 then descs.length else 0 := by
  unfold lim
  by_cases h : q < 16
  · simp [h]
  · by_cases h2 : q = 16 <;> simp [h, h2]

theorem finalState_params (pd : ParameterDescriptions) (q : Nat) :
    (finalState pd).c.m_paramsByParamType q
      = if q < 16 then (List.range pd.getDescriptions.length).map (slotAt pd.getDescriptions q)
        else [] := by
  simp only [finalState, stateAt, lim_final]
  by_cases h : q < 16 <;> simp [h]

theorem finalState_synthParams (pd : ParameterDescriptions) (k : ParamIndex) :
    (finalState pd).c.m_synthParams k
      = listToOpt (pubAt pd.getDescriptions k.part
          (if k.part < 16 then pd.getDescriptions.length else 0) k) := by
  simp only [finalState, stateAt, lim_final]

theorem finalState_synthInternalParams (pd : ParameterDescriptions) (k : ParamIndex) :
    (finalState pd).c.m_synthInternalParams k
      = listToOpt (intAt pd.getDescriptions k.part
          (if k.part < 16 then pd.getDescriptions.length else 0) k) := by
  simp only [finalState, stateAt, lim_final]

theorem finalState_derived (pd : ParameterDescriptions) :
    (finalState pd).derived
      = (List.range 16).flatMap fun q =>
          linksAt pd.getDescriptions q pd.getDescriptions.length := by
  simp [finalState, stateAt, linksAt]

theorem getParameter_finalState (pd : ParameterDescriptions) (index part : Nat) :
    (finalState pd).c.getParameter index part
      = if part < 16 ∧ index < pd.getDescriptions.length
        then some (slotAt pd.getDescriptions part index) else none := by
  unfold Controller.getParameter partCount
  rw [finalState_params]
  by_cases hp : part < 16
  · have hp' : ¬ part ≥ 16 := by omega
    by_cases hi : index < pd.getDescriptions.length
    · have hi' : ¬ index ≥ pd.getDescriptions.length := by omega
      simp [hp, hp', hi, hi', List.getElem?_range hi]
    · have hi' : index ≥ pd.getDescriptions.length := by omega
      simp [hp, hp', hi, hi']
  · have hp' : part ≥ 16 := by omega
    simp [hp, hp']

theorem descAt_of_getElem? {descs : List Description} {i : Nat} {d : Description}
    (h : descs[i]? = some d) : descAt descs i = d := by
  unfold descAt
  rw [List.getD_eq_getElem?_getD, h]
  rfl

theorem lt_length_of_getElem? {descs : List Description} {i : Nat} {d : Description}
    (h : descs[i]? = some d) : i < descs.length := by
  by_contra hc
  have : descs[i]? = none := List.getElem?_eq_none (by omega)
  rw [this] at h
  cases h

theorem slotAt_shared (descs : List Description) (q j : Nat)
    (h : (descAt descs j).isNonPartSensitive = true) :
    slotAt descs q j = instAt descs 0 j := by
  unfold slotAt retained
  by_cases hq : q = 0
  · subst hq; simp
  · simp [h, hq]

theorem slotAt_perPart (descs : List Description) (q j : Nat)
    (h : (descAt descs j).isNonPartSensitive = false) :
    slotAt descs q j = instAt descs q j := by
  simp [slotAt, retained, h]

theorem slotAt_desc (descs : List Description) (q j : Nat) :
    (slotAt descs q j).desc = descAt descs j := by
  unfold slotAt
  split <;> rfl

/-- C1. Address aliasing: after `registerParams`, a table row marked
non-part-sensitive yields the identical instance from `getParameter` at every
part 0..15, and a part-sensitive row yields 16 instances that are pairwise
distinct objects. -/
theorem registerParams_address_aliasing (pd : ParameterDescriptions) (i : Nat) (d : Description)
    (hd : pd.getDescriptions[i]? = some d) :
    ∃ s, registerParams (Controller.new pd) = some s ∧
      (d.isNonPartSensitive = true →
        ∃ x, ∀ part, part < 16 → s.c.getParameter i part = some x) ∧
      (d.isNonPartSensitive = false →
        ∀ p q, p < 16 → q < 16 → p ≠ q →
          ∃ x y, s.c.getParameter i p = some x ∧ s.c.getParameter i q = some y
            ∧ x.ptr ≠ y.ptr ∧ x ≠ y) := by
  have hi := lt_length_of_getElem? hd
  have hdesc := descAt_of_getElem? hd
  refine ⟨finalState pd, registerParams_eq pd, ?_, ?_⟩
  · intro hn
    refine ⟨instAt pd.getDescriptions 0 i, ?_⟩
    intro part hp
    rw [getParameter_finalState, if_pos ⟨hp, hi⟩, slotAt_shared _ _ _ (by rw [hdesc]; exact hn)]
  · intro hn p q hp hq hpq
    have hne : (instAt pd.getDescriptions p i).ptr ≠ (instAt pd.getDescriptions q i).ptr := by
      simp only [instAt]
      intro h
      have h2 : p * pd.getDescriptions.length = q * pd.getDescriptions.length := by omega
      have h3 : 0 < pd.getDescriptions.length := by omega
      exact hpq (Nat.eq_of_mul_eq_mul_right h3 h2)
    refine ⟨instAt pd.getDescriptions p i, instAt pd.getDescriptions q i, ?_, ?_, hne, ?_⟩
    · rw [getParameter_finalState, if_pos ⟨hp, hi⟩,
        slotAt_perPart _ _ _ (by rw [hdesc]; exact hn)]
    · rw [getParameter_finalState, if_pos ⟨hq, hi⟩,
        slotAt_perPart _ _ _ (by rw [hdesc]; exact hn)]
    · intro h
      exact hne (by rw [h])

/-- C2. After `registerParams`, `getParameter(index, part)` is the null result
exactly when `part >= 16` or `index` is not a table position; any instance it
returns was built from the table row at position `index`; and the flat list of
each of the 16 parts has one slot per row, in table order. -/
theorem getParameter_none_iff (pd : ParameterDescriptions) (index part : Nat) :
    ∃ s, registerParams (Controller.new pd) = some s ∧
      (s.c.getParameter index part = none
        ↔ (part ≥ 16 ∨ index ≥ pd.getDescriptions.length)) ∧
      (∀ x, s.c.getParameter index part = some x →
        pd.getDescriptions[index]? = some x.desc) ∧
      (s.c.m_paramsByParamType part).map (fun x => x.desc)
        = if part < 16 then pd.getDescriptions else [] := by
  refine ⟨finalState pd, registerParams_eq pd, ?_, ?_, ?_⟩
  · rw [getParameter_finalState]
    by_cases h : part < 16 ∧ index < pd.getDescriptions.length
    · rw [if_pos h]
      simp only [false_iff, reduceCtorEq]
      omega
    · rw [if_neg h]
      simp only [true_iff]
      omega
  · intro x hx
    rw [getParameter_finalState] at hx
    by_cases h : part < 16 ∧ index < pd.getDescriptions.length
    · rw [if_pos h] at hx
      cases hx
      rw [slotAt_desc, List.getElem?_eq_getElem h.2]
      unfold descAt
      rw [List.getD_eq_getElem _ _ h.2]
    · rw [if_neg h] at hx
      cases hx
  · rw [finalState_params]
    by_cases h : part < 16
    · simp only [h, if_true, List.map_map]
      apply List.ext_getElem
      · simp
      · intro n h1 h2
        simp only [List.getElem_map, List.getElem_range, Function.comp, slotAt_desc]
        unfold descAt
        rw [List.getD_eq_getElem _ _ h2]
    · simp [h]

theorem eq_singleton_of_nodup {l : List Nat} {i : Nat} (hn : l.Nodup) (hi : i ∈ l)
    (hall : ∀ x ∈ l, x = i) : l = [i] := by
  cases l with
  | nil => cases hi
  | cons a t =>
    have ha : a = i := hall a (List.mem_cons_self a t)
    subst ha
    have ht : t = [] := by
      apply List.eq_nil_iff_forall_not_mem.mpr
      intro x hx
      have hxa : x = a := hall x (List.mem_cons_of_mem a hx)
      subst hxa
      exact (List.nodup_cons.mp hn).1 hx
    rw [ht]

theorem sel_nodup (n : Nat) (f : Nat → Bool) : (sel n f).Nodup :=
  (List.nodup_range n).filter _

theorem uidOf_eq_zero (descs : List Description) (j : Nat)
    (h : ∀ k, k < j → addrOf descs 0 k ≠ addrOf descs 0 j) : uidOf descs j = 0 := by
  unfold uidOf
  rw [List.length_eq_zero]
  apply List.eq_nil_iff_forall_not_mem.mpr
  intro x hx
  rw [mem_sel] at hx
  exact h x hx.1 (by simpa using hx.2)

theorem uidOf_eq_one (descs : List Description) (i j : Nat) (hij : i < j)
    (hsame : addrOf descs 0 i = addrOf descs 0 j)
    (h : ∀ k, k < j → k ≠ i → addrOf descs 0 k ≠ addrOf descs 0 j) : uidOf descs j = 1 := by
  unfold uidOf
  have : (sel j fun k => decide (addrOf descs 0 k = addrOf descs 0 j)) = [i] := by
    apply eq_singleton_of_nodup (sel_nodup _ _)
    · rw [mem_sel]
      exact ⟨hij, by simpa using hsame⟩
    · intro x hx
      rw [mem_sel] at hx
      by_contra hne
      exact h x hx.1 hne (by simpa using hx.2)
  rw [this]
  rfl

theorem instAt_mem_foundAt (descs : List Description) (q i j : Nat) (hij : i < j)
    (hsame : addrOf descs 0 i = addrOf descs 0 j)
    (h : ∀ k, k < j → k ≠ i → addrOf descs 0 k ≠ addrOf descs 0 j)
    (hr : retained descs q i = true) : instAt descs q i ∈ foundAt descs q j := by
  have hsame' : addrOf descs q i = addrOf descs q j := (addrOf_eq_iff descs q i j).mpr hsame
  unfold foundAt
  cases hp : pubAt descs q j (addrOf descs q j) with
  | nil =>
    simp only
    have hint : (descAt descs i).isPublic = false := by
      by_contra hc
      have hc' : (descAt descs i).isPublic = true := by simpa using hc
      have : instAt descs q i ∈ pubAt descs q j (addrOf descs q j) := by
        unfold pubAt
        apply List.mem_map_of_mem
        rw [mem_sel]
        exact ⟨hij, by simp [hsame', hr, hc']⟩
      rw [hp] at this
      cases this
    unfold intAt
    apply List.mem_map_of_mem
    rw [mem_sel]
    exact ⟨hij, by simp [hsame', hr, hint]⟩
  | cons a l =>
    simp only
    rw [← hp]
    have hmem : a ∈ pubAt descs q j (addrOf descs q j) := by rw [hp]; exact List.mem_cons_self a l
    unfold pubAt at hmem
    rw [List.mem_map] at hmem
    obtain ⟨k, hk, _⟩ := hmem
    rw [mem_sel] at hk
    have hk2 : addrOf descs q k = addrOf descs q j ∧ retained descs q k = true
        ∧ (descAt descs k).isPublic = true := by simpa [and_assoc] using hk.2
    have hki : k = i := by
      by_contra hne
      exact h k hk.1 hne ((addrOf_eq_iff descs q k j).mp hk2.1)
    subst hki
    unfold pubAt
    apply List.mem_map_of_mem
    rw [mem_sel]
    exact ⟨hij, by simp [hk2.1, hk2.2.1, hk2.2.2]⟩

theorem retained_iff (descs : List Description) (q j : Nat) :
    retained descs q j = true ↔ (q = 0 ∨ (descAt descs j).isNonPartSensitive = false) := by
  unfold retained
  by_cases hq : q = 0
  · simp [hq]
  · cases h : (descAt descs j).isNonPartSensitive <;> simp [hq]

theorem instAt_mem_registered (descs : List Description) (q j n : Nat) (hj : j < n)
    (hr : retained descs q j = true) :
    instAt descs q j ∈ pubAt descs q n (addrOf descs q j) ++ intAt descs q n (addrOf descs q j) := by
  rw [List.mem_append]
  by_cases hp : (descAt descs j).isPublic = true
  · left
    unfold pubAt
    apply List.mem_map_of_mem
    rw [mem_sel]
    exact ⟨hj, by simp [hr, hp]⟩
  · right
    unfold intAt
    apply List.mem_map_of_mem
    rw [mem_sel]
    exact ⟨hj, by simp [hr, hp]⟩

theorem listToOpt_getD {α : Type} (l : List α) : (listToOpt l).getD [] = l := by
  cases l <;> rfl

/-- C4. Uid disambiguation: when rows `i < j` of the table are the first two
rows with one address (the same page byte and index), then at every part at
which both are registered (part 0, and every part when both are
part-sensitive) the registry holds at the address `(page, part, index)` the
instance of row `i` with uid 0 and the instance of row `j` with uid 1, and
`addDerivedParameter` was called on the uid-0 instance with the uid-1
instance. -/
theorem registerParams_uid_disambiguation (pd : ParameterDescriptions) (i j part : Nat)
    (di dj : Description)
    (hi : pd.getDescriptions[i]? = some di) (hj : pd.getDescriptions[j]? = some dj)
    (hij : i < j)
    (hpage : di.page % 256 = dj.page % 256) (hindex : di.index = dj.index)
    (hfirst : ∀ k dk, k < j → k ≠ i → pd.getDescriptions[k]? = some dk →
      ¬ (dk.page % 256 = dj.page % 256 ∧ dk.index = dj.index))
    (hpart : part < 16)
    (hreg : part = 0 ∨ (di.isNonPartSensitive = false ∧ dj.isNonPartSensitive = false)) :
    ∃ s, registerParams (Controller.new pd) = some s ∧
      ∃ a b, s.c.getParameter i part = some a ∧ s.c.getParameter j part = some b ∧
        a.desc = di ∧ b.desc = dj ∧ a.uid = 0 ∧ b.uid = 1 ∧ a.part = part ∧ b.part = part ∧
        a ∈ (s.c.m_synthParams ⟨dj.page % 256, part, dj.index⟩).getD []
              ++ (s.c.m_synthInternalParams ⟨dj.page % 256, part, dj.index⟩).getD [] ∧
        b ∈ (s.c.m_synthParams ⟨dj.page % 256, part, dj.index⟩).getD []
              ++ (s.c.m_synthInternalParams ⟨dj.page % 256, part, dj.index⟩).getD [] ∧
        (a, b) ∈ s.derived := by
  have hin := lt_length_of_getElem? hi
  have hjn := lt_length_of_getElem? hj
  have hdi := descAt_of_getElem? hi
  have hdj := descAt_of_getElem? hj
  have hsame : addrOf pd.getDescriptions 0 i = addrOf pd.getDescriptions 0 j := by
    simp [addrOf, hdi, hdj, hpage, hindex]
  have hothers : ∀ k, k < j → k ≠ i →
      addrOf pd.getDescriptions 0 k ≠ addrOf pd.getDescriptions 0 j := by
    intro k hk hne heq
    have hkn : k < pd.getDescriptions.length := by omega
    have hdk : pd.getDescriptions[k]? = some (descAt pd.getDescriptions k) := by
      rw [List.getElem?_eq_getElem hkn]
      unfold descAt
      rw [List.getD_eq_getElem _ _ hkn]
    apply hfirst k _ hk hne hdk
    simp only [addrOf, hdj, ParamIndex.mk.injEq, true_and] at heq
    exact heq
  have hri : retained pd.getDescriptions part i = true := by
    rw [retained_iff, hdi]
    rcases hreg with h | h
    · exact Or.inl h
    · exact Or.inr h.1
  have hrj : retained pd.getDescriptions part j = true := by
    rw [retained_iff, hdj]
    rcases hreg with h | h
    · exact Or.inl h
    · exact Or.inr h.2
  have huj : uidOf pd.getDescriptions j = 1 := uidOf_eq_one _ i j hij hsame hothers
  have hui : uidOf pd.getDescriptions i = 0 := by
    apply uidOf_eq_zero
    intro k hk heq
    exact hothers k (by omega) (by omega) (heq.trans hsame)
  have haddr_j : (⟨dj.page % 256, part, dj.index⟩ : ParamIndex)
      = addrOf pd.getDescriptions part j := by
    simp [addrOf, hdj]
  have haddr_i : (⟨dj.page % 256, part, dj.index⟩ : ParamIndex)
      = addrOf pd.getDescriptions part i := by
    simp [addrOf, hdi, hpage, hindex]
  refine ⟨finalState pd, registerParams_eq pd, instAt pd.getDescriptions part i,
    instAt pd.getDescriptions part j, ?_, ?_, ?_, ?_, ?_, ?_, rfl, rfl, ?_, ?_, ?_⟩
  · rw [getParameter_finalState, if_pos ⟨hpart, hin⟩]
    simp [slotAt, hri]
  · rw [getParameter_finalState, if_pos ⟨hpart, hjn⟩]
    simp [slotAt, hrj]
  · exact hdi
  · exact hdj
  · simp [instAt, hui]
  · simp [instAt, huj]
  · rw [finalState_synthParams, finalState_synthInternalParams, listToOpt_getD, listToOpt_getD]
    simp only [hpart, if_true]
    rw [haddr_i]
    exact instAt_mem_registered _ _ _ _ hin hri
  · rw [finalState_synthParams, finalState_synthInternalParams, listToOpt_getD, listToOpt_getD]
    simp only [hpart, if_true]
    rw [haddr_j]
    exact instAt_mem_registered _ _ _ _ hjn hrj
  · rw [finalState_derived, List.mem_flatMap]
    refine ⟨part, List.mem_range.mpr hpart, ?_⟩
    unfold linksAt
    rw [List.mem_flatMap]
    refine ⟨j, List.mem_range.mpr hjn, ?_⟩
    have : uidOf pd.getDescriptions j > 0 := by omega
    rw [if_pos this, List.mem_map]
    exact ⟨instAt pd.getDescriptions part i,
      instAt_mem_foundAt _ _ _ _ hij hsame hothers hri, rfl⟩

/-- Witness of C1 at the shared row (position 2) of the sample table. -/
theorem registerParams_address_aliasing_witness :
    sampleDescriptions.getDescriptions[2]?
        = some { page := 2, index := 0, name := "masterVolume", isPublic := true,
                 isNonPartSensitive := true } ∧
    ∃ s, registerParams (Controller.new sampleDescriptions) = some s ∧
      (true = true → ∃ x, ∀ part, part < 16 → s.c.getParameter 2 part = some x) ∧
      (true = false →
        ∀ p q, p < 16 → q < 16 → p ≠ q →
          ∃ x y, s.c.getParameter 2 p = some x ∧ s.c.getParameter 2 q = some y
            ∧ x.ptr ≠ y.ptr ∧ x ≠ y) :=
  ⟨rfl, registerParams_address_aliasing sampleDescriptions 2 _ rfl⟩

/-- Witness of C4 at rows 0 and 1 of the sample table, part 3. -/
theorem registerParams_uid_disambiguation_witness :
    ∃ s, registerParams (Controller.new sampleDescriptions) = some s ∧
      ∃ a b, s.c.getParameter 0 3 = some a ∧ s.c.getParameter 1 3 = some b ∧
        a.desc = { page := 1, index := 5, name := "cutoff", isPublic := true,
                   isNonPartSensitive := false } ∧
        b.desc = { page := 1, index := 5, name := "cutoffLayer", isPublic := false,
                   isNonPartSensitive := false } ∧
        a.uid = 0 ∧ b.uid = 1 ∧ a.part = 3 ∧ b.part = 3 ∧
        a ∈ (s.c.m_synthParams ⟨1 % 256, 3, 5⟩).getD []
              ++ (s.c.m_synthInternalParams ⟨1 % 256, 3, 5⟩).getD [] ∧
        b ∈ (s.c.m_synthParams ⟨1 % 256, 3, 5⟩).getD []
              ++ (s.c.m_synthInternalParams ⟨1 % 256, 3, 5⟩).getD [] ∧
        (a, b) ∈ s.derived :=
  registerParams_uid_disambiguation sampleDescriptions 0 1 3 _ _ rfl rfl (by decide) rfl rfl
    (by intro k dk hk hne; omega) (by decide) (Or.inr ⟨rfl, rfl⟩)

/-- C5. Failing inputs of `createMidiDataFromPacket`: on the registry built from
the sample table, a request for part 16 of a packet that needs a parameter,
and a request for an unknown packet name, both return false and leave the
caller's buffer `[0xF0, 0x7F]` as it was on entry instead of empty. -/
theorem createMidiDataFromPacket_failure_keeps_buffer :
    ∃ s, registerParams (Controller.new sampleDescriptions) = some s ∧
      s.c.createMidiDataFromPacket specCodec (fun _ => 64) [0xF0, 0x7F] "cutoffDump"
          scenarioData 16 = (false, [0xF0, 0x7F]) ∧
      s.c.createMidiDataFromPacket specCodec (fun _ => 64) [0xF0, 0x7F] "noSuchPacket"
          scenarioData 0 = (false, [0xF0, 0x7F]) :=
  ⟨finalState sampleDescriptions, registerParams_eq sampleDescriptions, by decide, by decide⟩

/-- C6. Failing inputs of `parseMidiPacket`: the overload by name with an unknown
name, and the identifying overload on a table without packets, return failure
and leave the maps of the caller as they were on entry (Part = 3 and the value
100 at (3, 0)) instead of empty. -/
theorem parseMidiPacket_failure_keeps_maps :
    ((Controller.new sampleDescriptions).parseMidiPacketByName specCodec "noSuchPacket"
        scenarioData (FMap.empty.insert (3, 0) 100) [0xF0, 0x18]).1 = false ∧
    ((Controller.new sampleDescriptions).parseMidiPacketByName specCodec "noSuchPacket"
        scenarioData (FMap.empty.insert (3, 0) 100) [0xF0, 0x18]).2.1 MidiDataType.Part
      = some 3 ∧
    ((Controller.new sampleDescriptions).parseMidiPacketByName specCodec "noSuchPacket"
        scenarioData (FMap.empty.insert (3, 0) 100) [0xF0, 0x18]).2.2 (3, 0) = some 100 ∧
    ((Controller.new { descriptions := [] }).parseMidiPacketIdentify specCodec "old"
        scenarioData (FMap.empty.insert (3, 0) 100) [0xF0, 0x18]).1 = false ∧
    ((Controller.new { descriptions := [] }).parseMidiPacketIdentify specCodec "old"
        scenarioData (FMap.empty.insert (3, 0) 100) [0xF0, 0x18]).2.2.1 MidiDataType.Part
      = some 3 ∧
    ((Controller.new { descriptions := [] }).parseMidiPacketIdentify specCodec "old"
        scenarioData (FMap.empty.insert (3, 0) 100) [0xF0, 0x18]).2.2.2 (3, 0) = some 100 := by
  decide

theorem probePackets_spec (c : Controller) (codec : PacketCodec) (src : Sysex)
    (packets : List (String × MidiPacket)) (name : String) (data : Data)
    (parameterValues : ParamValues) :
    (∀ pre e post, packets = pre ++ e :: post →
      (∀ x ∈ pre, (codec.parse x.2 FMap.empty FMap.empty c.m_descriptions src true).1 = false) →
      (codec.parse e.2 FMap.empty FMap.empty c.m_descriptions src true).1 = true →
      c.probePackets codec src packets name data parameterValues
        = (true, e.1, (codec.parse e.2 FMap.empty FMap.empty c.m_descriptions src true).2.1,
            (codec.parse e.2 FMap.empty FMap.empty c.m_descriptions src true).2.2)) ∧
    ((∀ x ∈ packets,
        (codec.parse x.2 FMap.empty FMap.empty c.m_descriptions src true).1 = false) →
      (c.probePackets codec src packets name data parameterValues).1 = false ∧
      (c.probePackets codec src packets name data parameterValues).2.1 = name) := by
  induction packets generalizing data parameterValues with
  | nil =>
    refine ⟨?_, ?_⟩
    · intro pre e post h
      cases pre <;> cases h
    · intro _
      simp [Controller.probePackets]
  | cons p rest ih =>
    refine ⟨?_, ?_⟩
    · intro pre e post h hpre he
      cases pre with
      | nil =>
        simp only [List.nil_append, List.cons.injEq] at h
        obtain ⟨h1, _⟩ := h
        subst h1
        simp [Controller.probePackets, Controller.parseMidiPacket, he]
      | cons a pre2 =>
        simp only [List.cons_append, List.cons.injEq] at h
        obtain ⟨h1, h2⟩ := h
        subst h1
        have hp : (codec.parse p.2 FMap.empty FMap.empty c.m_descriptions src true).1 = false :=
          hpre p (List.mem_cons_self _ _)
        simp only [Controller.probePackets, Controller.parseMidiPacket, hp, Bool.not_false,
          if_true]
        exact (ih _ _).1 pre2 e post h2
          (fun x hx => hpre x (List.mem_cons_of_mem _ hx)) he
    · intro hall
      have hp : (codec.parse p.2 FMap.empty FMap.empty c.m_descriptions src true).1 = false :=
        hall p (List.mem_cons_self _ _)
      simp only [Controller.probePackets, Controller.parseMidiPacket, hp, Bool.not_false,
        if_true]
      exact (ih _ _).2 (fun x hx => hall x (List.mem_cons_of_mem _ hx))

/-- C7. The identifying `parseMidiPacket` returns true exactly when some packet
of the table parses the buffer (parsing starts from cleared maps, checksum
errors ignored); it then reports the name of the first such packet in table
order together with exactly the maps that packet's parse produces from empty
maps; when no packet parses it returns false and the name is unchanged. -/
theorem parseMidiPacketIdentify_first_match (c : Controller) (codec : PacketCodec)
    (name : String) (data : Data) (parameterValues : ParamValues) (src : Sysex) :
    ((c.parseMidiPacketIdentify codec name data parameterValues src).1 = true
      ↔ ∃ e ∈ c.m_descriptions.getMidiPackets,
          (codec.parse e.2 FMap.empty FMap.empty c.m_descriptions src true).1 = true) ∧
    (∀ pre e post, c.m_descriptions.getMidiPackets = pre ++ e :: post →
      (∀ x ∈ pre, (codec.parse x.2 FMap.empty FMap.empty c.m_descriptions src true).1 = false) →
      (codec.parse e.2 FMap.empty FMap.empty c.m_descriptions src true).1 = true →
      c.parseMidiPacketIdentify codec name data parameterValues src
        = (true, e.1, (codec.parse e.2 FMap.empty FMap.empty c.m_descriptions src true).2.1,
            (codec.parse e.2 FMap.empty FMap.empty c.m_descriptions src true).2.2)) ∧
    ((∀ x ∈ c.m_descriptions.getMidiPackets,
        (codec.parse x.2 FMap.empty FMap.empty c.m_descriptions src true).1 = false) →
      (c.parseMidiPacketIdentify codec name data parameterValues src).1 = false ∧
      (c.parseMidiPacketIdentify codec name data parameterValues src).2.1 = name) := by
  have h := probePackets_spec c codec src c.m_descriptions.getMidiPackets name data
    parameterValues
  refine ⟨?_, h.1, h.2⟩
  unfold Controller.parseMidiPacketIdentify
  constructor
  · intro ht
    by_contra hne
    have hall : ∀ x ∈ c.m_descriptions.getMidiPackets,
        (codec.parse x.2 FMap.empty FMap.empty c.m_descriptions src true).1 = false := by
      intro x hx
      by_contra hx2
      exact hne ⟨x, hx, by simpa using hx2⟩
    rw [(h.2 hall).1] at ht
    cases ht
  · rintro ⟨e, he, hparse⟩
    -- the first packet that parses
    have hfirst : ∀ l : List (String × MidiPacket), e ∈ l →
        ∃ pre f post, l = pre ++ f :: post ∧
          (∀ x ∈ pre,
            (codec.parse x.2 FMap.empty FMap.empty c.m_descriptions src true).1 = false) ∧
          (codec.parse f.2 FMap.empty FMap.empty c.m_descriptions src true).1 = true := by
      intro l
      induction l with
      | nil => intro hm; cases hm
      | cons a t iht =>
        intro hm
        by_cases ha : (codec.parse a.2 FMap.empty FMap.empty c.m_descriptions src true).1 = true
        · exact ⟨[], a, t, rfl, by simp, ha⟩
        · have hat : e ∈ t := by
            rcases List.mem_cons.mp hm with h1 | h1
            · subst h1; exact absurd hparse ha
            · exact h1
          obtain ⟨pre, f, post, h1, h2, h3⟩ := iht hat
          refine ⟨a :: pre, f, post, by rw [h1]; rfl, ?_, h3⟩
          intro x hx
          rcases List.mem_cons.mp hx with h4 | h4
          · subst h4; simpa using ha
          · exact h2 x h4
    obtain ⟨pre, f, post, h1, h2, h3⟩ := hfirst _ he
    rw [h.1 pre f post h1 h2 h3]

theorem foldl_addPluginMidiOut (batches : List (List SMidiEvent)) (c : Controller) :
    (batches.foldl Controller.addPluginMidiOut c).m_pluginMidiOut
      = c.m_pluginMidiOut ++ batches.flatten := by
  induction batches generalizing c with
  | nil => simp
  | cons b rest ih =>
    simp only [List.foldl_cons, ih, Controller.addPluginMidiOut, List.flatten_cons,
      List.append_assoc]

/-- C8. In a sequential run, a drain (`getPluginMidiOut`) returns exactly the
events of the `addPluginMidiOut` calls made since the previous drain, in the
order they were appended, whatever the vector of the caller held on entry;
the queue is empty afterwards, so a drain that follows at once returns no
events. -/
theorem getPluginMidiOut_returns_appended (c : Controller) (out0 out1 out2 : List SMidiEvent)
    (batches : List (List SMidiEvent)) :
    ((batches.foldl Controller.addPluginMidiOut (c.getPluginMidiOut out0).1).getPluginMidiOut
        out1).2 = batches.flatten ∧
    ((batches.foldl Controller.addPluginMidiOut (c.getPluginMidiOut out0).1).getPluginMidiOut
        out1).1.m_pluginMidiOut = [] ∧
    (((batches.foldl Controller.addPluginMidiOut (c.getPluginMidiOut out0).1).getPluginMidiOut
        out1).1.getPluginMidiOut out2).2 = [] := by
  refine ⟨?_, rfl, rfl⟩
  simp only [Controller.getPluginMidiOut, foldl_addPluginMidiOut, List.nil_append]

/-- C9. `sendSysEx(packetName, params)` builds the packet into an empty buffer
for part 0; when building fails it returns false and the processor receives
no event; when building succeeds it returns true and the processor receives
exactly one more event, whose sysex is the built buffer and whose source is
the editor. -/
theorem sendSysExParams_sends_iff_built (c : Controller) (codec : PacketCodec)
    (valueOf : Parameter → Int) (proc : Processor) (packetName : String) (params : Data) :
    ((c.createMidiDataFromPacket codec valueOf [] packetName params 0).1 = false →
      c.sendSysExParams codec valueOf proc packetName params = (false, proc)) ∧
    ((c.createMidiDataFromPacket codec valueOf [] packetName params 0).1 = true →
      c.sendSysExParams codec valueOf proc packetName params
        = (true,
            { midiEvents := proc.midiEvents ++
                [{ sysex := (c.createMidiDataFromPacket codec valueOf [] packetName params 0).2,
                   source := MidiEventSource.MidiEventSourceEditor }] })) := by
  refine ⟨?_, ?_⟩
  · intro h
    simp [Controller.sendSysExParams, h]
  · intro h
    simp [Controller.sendSysExParams, h, Controller.sendSysEx, Processor.addMidiEvent]

/-! ### Round trip of the codec modelled from the spec -/

/-- The scenario of the spec (section 8) on the codec modelled from it: the
values Part = 3, ParameterIndex = 10, ParameterValue = 64 encode to
`[0xF0, 0x18, 0x03, 0x0A, 0x40, 0x4D]`, and that buffer decodes, checksum
verified, to the same three values. -/
theorem scenario_encodes_and_decodes :
    scenarioPacket.create [] scenarioData FMap.empty
      = (true, [0xF0, 0x18, 0x03, 0x0A, 0x40, 0x4D]) ∧
    (scenarioPacket.parse FMap.empty FMap.empty sampleDescriptions
      [0xF0, 0x18, 0x03, 0x0A, 0x40, 0x4D] false).1 = true ∧
    (scenarioPacket.parse FMap.empty FMap.empty sampleDescriptions
      [0xF0, 0x18, 0x03, 0x0A, 0x40, 0x4D] false).2.1 MidiDataType.Part = some 3 ∧
    (scenarioPacket.parse FMap.empty FMap.empty sampleDescriptions
      [0xF0, 0x18, 0x03, 0x0A, 0x40, 0x4D] false).2.1 MidiDataType.ParameterIndex = some 10 ∧
    (scenarioPacket.parse FMap.empty FMap.empty sampleDescriptions
      [0xF0, 0x18, 0x03, 0x0A, 0x40, 0x4D] false).2.1 MidiDataType.ParameterValue = some 64 := by
  decide

/-- Witness of C7 on the sample table: the buffer of the scenario is refused by
the first two packets (wrong length) and accepted by the third, whose name it
reports with the maps of that parse. -/
theorem parseMidiPacketIdentify_first_match_witness :
    (Controller.new sampleDescriptions).parseMidiPacketIdentify specCodec "old" scenarioData
        FMap.empty [0xF0, 0x18, 0x03, 0x0A, 0x40, 0x4D]
      = (true, "singleParam",
          (specCodec.parse scenarioPacket FMap.empty FMap.empty sampleDescriptions
            [0xF0, 0x18, 0x03, 0x0A, 0x40, 0x4D] true).2.1,
          (specCodec.parse scenarioPacket FMap.empty FMap.empty sampleDescriptions
            [0xF0, 0x18, 0x03, 0x0A, 0x40, 0x4D] true).2.2) :=
  (parseMidiPacketIdentify_first_match (Controller.new sampleDescriptions) specCodec "old"
      scenarioData FMap.empty [0xF0, 0x18, 0x03, 0x0A, 0x40, 0x4D]).2.1
    [("crossChecksum", crossChecksumPacket), ("cutoffDump", cutoffPacket)]
    ("singleParam", scenarioPacket) [] rfl (by decide) (by decide)

/-- Witness of C9 on the sample table: the packet of the scenario builds, so
exactly one event with its six bytes and source editor reaches the processor;
an unknown packet name does not build, so the processor is left as it was. -/
theorem sendSysExParams_sends_iff_built_witness :
    (Controller.new sampleDescriptions).sendSysExParams specCodec (fun _ => 0)
        { midiEvents := [] } "singleParam" scenarioData
      = (true, { midiEvents :=
          [{ sysex := [0xF0, 0x18, 0x03, 0x0A, 0x40, 0x4D],
             source := MidiEventSource.MidiEventSourceEditor }] }) ∧
    (Controller.new sampleDescriptions).sendSysExParams specCodec (fun _ => 0)
        { midiEvents := [] } "noSuchPacket" scenarioData
      = (false, { midiEvents := [] }) :=
  ⟨((sendSysExParams_sends_iff_built (Controller.new sampleDescriptions) specCodec (fun _ => 0)
      { midiEvents := [] } "singleParam" scenarioData).2 (by decide)).trans (by decide),
   (sendSysExParams_sends_iff_built (Controller.new sampleDescriptions) specCodec (fun _ => 0)
      { midiEvents := [] } "noSuchPacket" scenarioData).1 (by decide)⟩

/-! ### Intermediate states of the registration loops -/

theorem loopState_eq (pd : ParameterDescriptions) (p i : Nat)
    (hi : i ≤ pd.getDescriptions.length) :
    loopState (Controller.new pd) p i = some (stateAt pd p i) := by
  have hg : ({ stateAt pd p 0 with group := [] } : RegState) = stateAt pd p 0 := by
    apply RegState.eq_of_fields <;> rfl
  have hd : (stateAt pd p 0).c.m_descriptions.getDescriptions = pd.getDescriptions := rfl
  unfold loopState
  rw [init_eq_stateAt, foldlM_registerPart_range]
  simp only [Option.some_bind]
  rw [hg, hd]
  exact foldlM_registerDesc_take pd p i hi

theorem stateAt_params_zero (pd : ParameterDescriptions) (p i : Nat) (hp : 0 < p) :
    (stateAt pd p i).c.m_paramsByParamType 0
      = (List.range pd.getDescriptions.length).map (slotAt pd.getDescriptions 0) := by
  simp [stateAt, lim, hp]

theorem stateAt_params_self (pd : ParameterDescriptions) (p i : Nat) :
    (stateAt pd p i).c.m_paramsByParamType p
      = (List.range i).map (slotAt pd.getDescriptions p) := by
  simp [stateAt, lim_self]

/-- C16. The aliasing read of `registerParams` is in range: when the loops reach
a non-part-sensitive row `i` at a part 1..15, the flat list of part 0 has one
slot per row of the table and the list of the current part has exactly `i`
slots, so `m_paramsByParamType[0][m_paramsByParamType[part].size()]` exists;
it is the part-0 instance of row `i`, the loop body pushes it and goes on, and
`registerParams` runs to its end. -/
theorem aliasing_read_in_range (pd : ParameterDescriptions) (p i : Nat) (d : Description)
    (hp1 : 1 ≤ p) (hp : p < 16) (hd : pd.getDescriptions[i]? = some d)
    (hn : d.isNonPartSensitive = true) :
    ∃ s, loopState (Controller.new pd) p i = some s ∧
      (s.c.m_paramsByParamType 0).length = pd.getDescriptions.length ∧
      (s.c.m_paramsByParamType p).length = i ∧
      ∃ x, (s.c.m_paramsByParamType 0)[(s.c.m_paramsByParamType p).length]? = some x ∧
        x.desc = d ∧ x.part = 0 ∧
        (∃ s2, registerDesc p s d = some s2 ∧
          s2.c.m_paramsByParamType p = s.c.m_paramsByParamType p ++ [x]) ∧
        ∃ sf, registerParams (Controller.new pd) = some sf ∧ sf.c.getParameter i 0 = some x := by
  have hi := lt_length_of_getElem? hd
  have hdesc := descAt_of_getElem? hd
  have hp0 : 0 < p := hp1
  have h16 : 0 < 16 := Nat.lt_of_le_of_lt (Nat.zero_le p) hp
  have hr0 : retained pd.getDescriptions 0 i = true := by simp [retained_eq]
  have hread : ((stateAt pd p i).c.m_paramsByParamType 0)[
      ((stateAt pd p i).c.m_paramsByParamType p).length]?
        = some (instAt pd.getDescriptions 0 i) := by
    rw [stateAt_params_zero pd p i hp0, stateAt_params_self]
    simp only [List.length_map, List.length_range, List.getElem?_map]
    rw [List.getElem?_range hi]
    simp [slotAt, hr0]
  refine ⟨stateAt pd p i, loopState_eq pd p i (Nat.le_of_lt hi), ?_, ?_,
    instAt pd.getDescriptions 0 i, hread, hdesc, rfl, ?_, finalState pd, registerParams_eq pd, ?_⟩
  · rw [stateAt_params_zero pd p i hp0]; simp
  · rw [stateAt_params_self]; simp
  · refine ⟨stateAt pd p (i + 1), ?_, ?_⟩
    · rw [← hdesc]
      exact registerDesc_stateAt pd p i hi
    · rw [params_succ]
      have hs : slotAt pd.getDescriptions p i = instAt pd.getDescriptions 0 i := by
        rw [slotAt_shared _ _ _ (by rw [hdesc]; exact hn)]
      simp [hs]
  · rw [getParameter_finalState, if_pos ⟨h16, hi⟩]
    simp [slotAt, hr0]

/-- Witness of C16 at part 3 and the shared row (position 2) of the sample table. -/
theorem aliasing_read_in_range_witness :
    ∃ s, loopState (Controller.new sampleDescriptions) 3 2 = some s ∧
      (s.c.m_paramsByParamType 0).length = sampleDescriptions.getDescriptions.length ∧
      (s.c.m_paramsByParamType 3).length = 2 ∧
      ∃ x, (s.c.m_paramsByParamType 0)[(s.c.m_paramsByParamType 3).length]? = some x ∧
        x.desc = { page := 2, index := 0, name := "masterVolume", isPublic := true,
                   isNonPartSensitive := true } ∧ x.part = 0 ∧
        (∃ s2, registerDesc 3 s (⟨2, 0, "masterVolume", true, true⟩ : Description) = some s2 ∧
          s2.c.m_paramsByParamType 3 = s.c.m_paramsByParamType 3 ++ [x]) ∧
        ∃ sf, registerParams (Controller.new sampleDescriptions) = some sf ∧
          sf.c.getParameter 2 0 = some x :=
  aliasing_read_in_range sampleDescriptions 3 2 _ (by decide) (by decide) rfl rfl

/-! ### Counting rows -/

theorem sel_length_eq_countP (descs : List Description) (f : Description → Bool) (n : Nat)
    (hn : n ≤ descs.length) :
    (sel n fun j => f (descAt descs j)).length = (descs.take n).countP f := by
  induction n with
  | zero => simp [sel_zero]
  | succ m ih =>
    have hm : m < descs.length := hn
    have hd : descs[m] = descAt descs m := by
      unfold descAt
      rw [List.getD_eq_getElem _ _ hm]
    rw [sel_succ, List.take_succ, List.getElem?_eq_getElem hm, List.countP_append,
      List.length_append, ih (Nat.le_of_lt hm), hd]
    by_cases h : f (descAt descs m) = true <;> simp [h]

theorem uidOf_eq_countP (descs : List Description) (i : Nat) (d : Description)
    (hd : descs[i]? = some d) :
    uidOf descs i
      = (descs.take i).countP fun e =>
          decide (e.page % 256 = d.page % 256 ∧ e.index = d.index) := by
  have hi := lt_length_of_getElem? hd
  have hdesc := descAt_of_getElem? hd
  rw [← sel_length_eq_countP descs _ i (Nat.le_of_lt hi)]
  unfold uidOf
  congr 2
  funext j
  simp [addrOf, hdesc]

theorem finalState_discarded (pd : ParameterDescriptions) :
    (finalState pd).discarded
      = (List.range 16).flatMap fun q =>
          discAt pd.getDescriptions q pd.getDescriptions.length := by
  simp [finalState, stateAt, discAt, sel_zero]

theorem finalState_heapNext (pd : ParameterDescriptions) :
    (finalState pd).heapNext = 16 * pd.getDescriptions.length := by
  simp [finalState, stateAt]

theorem instAt_mem_params_or_discarded (pd : ParameterDescriptions) (q i : Nat) (hq : q < 16)
    (hi : i < pd.getDescriptions.length) :
    instAt pd.getDescriptions q i ∈ (finalState pd).c.m_paramsByParamType q
      ∨ instAt pd.getDescriptions q i ∈ (finalState pd).discarded := by
  by_cases hr : retained pd.getDescriptions q i = true
  · left
    rw [finalState_params, if_pos hq, List.mem_map]
    exact ⟨i, List.mem_range.mpr hi, by simp [slotAt, hr]⟩
  · right
    rw [finalState_discarded, List.mem_flatMap]
    refine ⟨q, List.mem_range.mpr hq, ?_⟩
    unfold discAt
    apply List.mem_map_of_mem
    rw [mem_sel]
    exact ⟨hi, by simpa using hr⟩

theorem slotAt_uid (descs : List Description) (q j : Nat) :
    (slotAt descs q j).uid = (uidOf descs j : Int) := by
  unfold slotAt
  split <;> rfl

/-- C13. For every part 0..15 and every table position `i`, the instance that
`registerParams` constructs for row `i` at that part (the allocation number
`part * N + i`, kept in the flat list of the part or discarded) gets as uid
the number of earlier rows with the page byte and index of row `i`; the
instance `getParameter(i, part)` returns carries the same uid, so the uid of a
row is the same at all 16 parts. -/
theorem registerParams_uid_counts (pd : ParameterDescriptions) (q i : Nat) (d : Description)
    (hq : q < 16) (hd : pd.getDescriptions[i]? = some d) :
    ∃ s, registerParams (Controller.new pd) = some s ∧
      (∃ x, (x ∈ s.c.m_paramsByParamType q ∨ x ∈ s.discarded) ∧
        x.ptr = q * pd.getDescriptions.length + i ∧ x.desc = d ∧ x.part = q ∧
        x.uid = (((pd.getDescriptions.take i).countP fun e =>
          decide (e.page % 256 = d.page % 256 ∧ e.index = d.index) : Nat) : Int)) ∧
      (∃ y, s.c.getParameter i q = some y ∧
        y.uid = (((pd.getDescriptions.take i).countP fun e =>
          decide (e.page % 256 = d.page % 256 ∧ e.index = d.index) : Nat) : Int)) := by
  have hi := lt_length_of_getElem? hd
  have hdesc := descAt_of_getElem? hd
  have hu := uidOf_eq_countP pd.getDescriptions i d hd
  refine ⟨finalState pd, registerParams_eq pd, ⟨instAt pd.getDescriptions q i,
    instAt_mem_params_or_discarded pd q i hq hi, rfl, hdesc, rfl, ?_⟩,
    ⟨slotAt pd.getDescriptions q i, ?_, ?_⟩⟩
  · simp only [instAt, hu]
  · rw [getParameter_finalState, if_pos ⟨hq, hi⟩]
  · rw [slotAt_uid, hu]

/-- Witness of C13 at part 3 and row 1 of the sample table, whose address row 0
has too: uid 1. -/
theorem registerParams_uid_counts_witness :
    ∃ s, registerParams (Controller.new sampleDescriptions) = some s ∧
      (∃ x, (x ∈ s.c.m_paramsByParamType 3 ∨ x ∈ s.discarded) ∧
        x.ptr = 3 * 3 + 1 ∧
        x.desc = (⟨1, 5, "cutoffLayer", false, false⟩ : Description) ∧ x.part = 3 ∧
        x.uid = ((1 : Nat) : Int)) ∧
      (∃ y, s.c.getParameter 1 3 = some y ∧ y.uid = ((1 : Nat) : Int)) :=
  registerParams_uid_counts sampleDescriptions 3 1 _ (by decide) rfl

/-! ### Constructed, retained and discarded instances -/

theorem instAt_ptr_inj (descs : List Description) (q j q2 j2 : Nat) (hj : j < descs.length)
    (hj2 : j2 < descs.length)
    (h : (instAt descs q j).ptr = (instAt descs q2 j2).ptr) : q = q2 ∧ j = j2 := by
  simp only [instAt] at h
  rcases Nat.lt_trichotomy q q2 with hlt | heq | hgt
  · have h1 : (q + 1) * descs.length ≤ q2 * descs.length := Nat.mul_le_mul_right _ hlt
    rw [Nat.succ_mul] at h1
    omega
  · subst heq
    exact ⟨rfl, by omega⟩
  · have h1 : (q2 + 1) * descs.length ≤ q * descs.length := Nat.mul_le_mul_right _ hgt
    rw [Nat.succ_mul] at h1
    omega

theorem mem_discarded_iff (pd : ParameterDescriptions) (x : Parameter) :
    x ∈ (finalState pd).discarded
      ↔ ∃ q j, q < 16 ∧ j < pd.getDescriptions.length
          ∧ retained pd.getDescriptions q j = false ∧ x = instAt pd.getDescriptions q j := by
  rw [finalState_discarded, List.mem_flatMap]
  constructor
  · rintro ⟨q, hq, hx⟩
    unfold discAt at hx
    rw [List.mem_map] at hx
    obtain ⟨j, hj, hxj⟩ := hx
    rw [mem_sel] at hj
    exact ⟨q, j, List.mem_range.mp hq, hj.1, by simpa using hj.2, hxj.symm⟩
  · rintro ⟨q, j, hq, hj, hr, hx⟩
    refine ⟨q, List.mem_range.mpr hq, ?_⟩
    unfold discAt
    rw [hx]
    apply List.mem_map_of_mem
    rw [mem_sel]
    exact ⟨hj, by simp [hr]⟩

theorem mem_params_finalState (pd : ParameterDescriptions) (q : Nat) (x : Parameter)
    (hx : x ∈ (finalState pd).c.m_paramsByParamType q) :
    ∃ q2 j, j < pd.getDescriptions.length ∧ retained pd.getDescriptions q2 j = true
      ∧ x = instAt pd.getDescriptions q2 j := by
  rw [finalState_params] at hx
  by_cases hq : q < 16
  · rw [if_pos hq, List.mem_map] at hx
    obtain ⟨j, hj, hxj⟩ := hx
    have hjn := List.mem_range.mp hj
    by_cases hr : retained pd.getDescriptions q j = true
    · exact ⟨q, j, hjn, hr, by rw [← hxj]; simp [slotAt, hr]⟩
    · exact ⟨0, j, hjn, by simp [retained_eq], by rw [← hxj]; simp [slotAt, hr]⟩
  · rw [if_neg hq] at hx
    cases hx

theorem mem_pubAt (descs : List Description) (q n : Nat) (k : ParamIndex) (x : Parameter) :
    x ∈ pubAt descs q n k
      ↔ ∃ j, j < n ∧ addrOf descs q j = k ∧ retained descs q j = true
          ∧ (descAt descs j).isPublic = true ∧ x = instAt descs q j := by
  unfold pubAt
  rw [List.mem_map]
  constructor
  · rintro ⟨j, hj, hx⟩
    rw [mem_sel] at hj
    have h2 : (addrOf descs q j = k ∧ retained descs q j = true)
        ∧ (descAt descs j).isPublic = true := by simpa using hj.2
    exact ⟨j, hj.1, h2.1.1, h2.1.2, h2.2, hx.symm⟩
  · rintro ⟨j, hj, h1, h2, h3, hx⟩
    exact ⟨j, mem_sel.mpr ⟨hj, by simp [h1, h2, h3]⟩, hx.symm⟩

theorem mem_intAt (descs : List Description) (q n : Nat) (k : ParamIndex) (x : Parameter) :
    x ∈ intAt descs q n k
      ↔ ∃ j, j < n ∧ addrOf descs q j = k ∧ retained descs q j = true
          ∧ (descAt descs j).isPublic = false ∧ x = instAt descs q j := by
  unfold intAt
  rw [List.mem_map]
  constructor
  · rintro ⟨j, hj, hx⟩
    rw [mem_sel] at hj
    have h2 : (addrOf descs q j = k ∧ retained descs q j = true)
        ∧ (descAt descs j).isPublic = false := by simpa using hj.2
    exact ⟨j, hj.1, h2.1.1, h2.1.2, h2.2, hx.symm⟩
  · rintro ⟨j, hj, h1, h2, h3, hx⟩
    exact ⟨j, mem_sel.mpr ⟨hj, by simp [h1, h2, h3]⟩, hx.symm⟩

theorem mem_synthParams_finalState (pd : ParameterDescriptions) (k : ParamIndex) (x : Parameter) :
    x ∈ ((finalState pd).c.m_synthParams k).getD []
      ↔ ∃ j, k.part < 16 ∧ j < pd.getDescriptions.length
          ∧ addrOf pd.getDescriptions k.part j = k ∧ retained pd.getDescriptions k.part j = true
          ∧ (descAt pd.getDescriptions j).isPublic = true
          ∧ x = instAt pd.getDescriptions k.part j := by
  rw [finalState_synthParams, listToOpt_getD, mem_pubAt]
  by_cases hq : k.part < 16
  · simp [hq]
  · simp [hq]

theorem mem_synthInternalParams_finalState (pd : ParameterDescriptions) (k : ParamIndex)
    (x : Parameter) :
    x ∈ ((finalState pd).c.m_synthInternalParams k).getD []
      ↔ ∃ j, k.part < 16 ∧ j < pd.getDescriptions.length
          ∧ addrOf pd.getDescriptions k.part j = k ∧ retained pd.getDescriptions k.part j = true
          ∧ (descAt pd.getDescriptions j).isPublic = false
          ∧ x = instAt pd.getDescriptions k.part j := by
  rw [finalState_synthInternalParams, listToOpt_getD, mem_intAt]
  by_cases hq : k.part < 16
  · simp [hq]
  · simp [hq]

/-- An instance is either kept or discarded, never both. -/
theorem instAt_retained_ne_discarded (descs : List Description) (q j q2 j2 : Nat)
    (hj : j < descs.length) (hj2 : j2 < descs.length)
    (hr : retained descs q j = true) (hr2 : retained descs q2 j2 = false) :
    instAt descs q2 j2 ≠ instAt descs q j := by
  intro h
  obtain ⟨h1, h2⟩ := instAt_ptr_inj descs q2 j2 q j hj2 hj (by rw [h])
  subst h1 h2
  rw [hr] at hr2
  cases hr2

theorem discarded_not_kept (pd : ParameterDescriptions) (x : Parameter)
    (hx : x ∈ (finalState pd).discarded) :
    (∀ q, x ∉ (finalState pd).c.m_paramsByParamType q) ∧
    (∀ k, x ∉ ((finalState pd).c.m_synthParams k).getD []) ∧
    (∀ k, x ∉ ((finalState pd).c.m_synthInternalParams k).getD []) := by
  obtain ⟨q, j, _, hj, hr, hxe⟩ := (mem_discarded_iff pd x).mp hx
  subst hxe
  refine ⟨?_, ?_, ?_⟩
  · intro q2 hm
    obtain ⟨q3, j3, hj3, hr3, he⟩ := mem_params_finalState pd q2 _ hm
    exact instAt_retained_ne_discarded _ q3 j3 q j hj3 hj hr3 hr he
  · intro k hm
    obtain ⟨j3, _, hj3, _, hr3, _, he⟩ := (mem_synthParams_finalState pd k _).mp hm
    exact instAt_retained_ne_discarded _ k.part j3 q j hj3 hj hr3 hr he
  · intro k hm
    obtain ⟨j3, _, hj3, _, hr3, _, he⟩ := (mem_synthInternalParams_finalState pd k _).mp hm
    exact instAt_retained_ne_discarded _ k.part j3 q j hj3 hj hr3 hr he

theorem length_flatMap_const {α β : Type} (l : List α) (f : α → List β) (c : Nat)
    (h : ∀ a ∈ l, (f a).length = c) : (l.flatMap f).length = l.length * c := by
  induction l with
  | nil => simp
  | cons a t ih =>
    rw [List.flatMap_cons, List.length_append, h a (List.mem_cons_self _ _),
      ih fun b hb => h b (List.mem_cons_of_mem _ hb), List.length_cons, Nat.succ_mul]
    omega

theorem discAt_length (descs : List Description) (q : Nat) :
    (discAt descs q descs.length).length
      = if q = 0 then 0 else descs.countP fun d => d.isNonPartSensitive := by
  unfold discAt
  rw [List.length_map]
  by_cases hq : q = 0
  · subst hq
    simp [retained_eq, sel]
  · rw [if_neg hq]
    have h := sel_length_eq_countP descs (fun d => d.isNonPartSensitive) descs.length
      (Nat.le_refl _)
    rw [List.take_length] at h
    rw [← h]
    congr 2
    funext j
    simp [retained_eq, hq]

theorem finalState_discarded_length (pd : ParameterDescriptions) :
    (finalState pd).discarded.length
      = 15 * pd.getDescriptions.countP fun d => d.isNonPartSensitive := by
  rw [finalState_discarded]
  have h16 : List.range 16 = 0 :: (List.range 15).map Nat.succ := List.range_succ_eq_map 15
  rw [h16, List.flatMap_cons, List.length_append, discAt_length, if_pos rfl, Nat.zero_add,
    length_flatMap_const _ _ (pd.getDescriptions.countP fun d => d.isNonPartSensitive)]
  · simp
  · intro q hq
    rw [List.mem_map] at hq
    obtain ⟨m, _, hm⟩ := hq
    rw [discAt_length, if_neg (by omega)]

/-- C11 (amended). For a non-part-sensitive row and a part other than 0,
`registerParams` keeps no new instance: the slot of that part is aliased to the
instance of part 0 at the same position, and the instance it constructed for
that part is discarded, in no flat list and in neither address map.
`createParameter` itself runs once for every part and row (16 times per row),
and 15 instances per non-part-sensitive row are discarded, so 16 instances per
part-sensitive row and 1 per non-part-sensitive row are kept. -/
theorem registerParams_constructs_then_discards (pd : ParameterDescriptions) :
    ∃ s, registerParams (Controller.new pd) = some s ∧
      s.heapNext = 16 * pd.getDescriptions.length ∧
      s.discarded.length = 15 * (pd.getDescriptions.countP fun d => d.isNonPartSensitive) ∧
      (∀ x ∈ s.discarded,
        (∀ q, x ∉ s.c.m_paramsByParamType q) ∧
        (∀ k, x ∉ (s.c.m_synthParams k).getD []) ∧
        (∀ k, x ∉ (s.c.m_synthInternalParams k).getD [])) ∧
      (∀ q i d, 1 ≤ q → q < 16 → pd.getDescriptions[i]? = some d →
        d.isNonPartSensitive = true →
        s.c.getParameter i q = s.c.getParameter i 0 ∧
        ∃ x ∈ s.discarded, x.ptr = q * pd.getDescriptions.length + i ∧ x.desc = d
          ∧ x.part = q) := by
  refine ⟨finalState pd, registerParams_eq pd, finalState_heapNext pd,
    finalState_discarded_length pd, discarded_not_kept pd, ?_⟩
  intro q i d hq1 hq hd hn
  have hi := lt_length_of_getElem? hd
  have hdesc := descAt_of_getElem? hd
  have hn2 : (descAt pd.getDescriptions i).isNonPartSensitive = true := by rw [hdesc]; exact hn
  refine ⟨?_, instAt pd.getDescriptions q i, ?_, rfl, hdesc, rfl⟩
  · rw [getParameter_finalState, getParameter_finalState, if_pos ⟨hq, hi⟩,
      if_pos ⟨by omega, hi⟩, slotAt_shared _ _ _ hn2, slotAt_shared _ _ _ hn2]
  · rw [mem_discarded_iff]
    refine ⟨q, i, hq, hi, ?_, rfl⟩
    have hq0 : q ≠ 0 := by omega
    simp [retained_eq, hn2, hq0]

/-- C11, counterexample. On a table with a single non-part-sensitive row,
`registerParams` calls `createParameter` 16 times, not once: 15 of the
instances are discarded, among them one constructed for part 1. -/
theorem registerParams_constructs_at_every_part :
    ∃ s, registerParams (Controller.new sharedOnlyDescriptions) = some s ∧
      s.heapNext = 16 ∧ s.discarded.length = 15 ∧
      ∃ x ∈ s.discarded, x.ptr = 1 ∧ x.part = 1
        ∧ x.desc = (⟨2, 0, "masterVolume", true, true⟩ : Description) :=
  ⟨finalState sharedOnlyDescriptions, registerParams_eq sharedOnlyDescriptions, by decide,
    by decide, by decide⟩

/-! ### Derived links -/

theorem sel_length_mono (f : Nat → Bool) (n m : Nat) (h : n ≤ m) :
    (sel n f).length ≤ (sel m f).length :=
  ((List.range_sublist.mpr h).filter f).length_le

theorem uidOf_lt_of_earlier (descs : List Description) (j1 j2 : Nat) (h : j1 < j2)
    (ha : addrOf descs 0 j1 = addrOf descs 0 j2) : uidOf descs j1 < uidOf descs j2 := by
  unfold uidOf
  rw [ha]
  have hstep : (sel (j1 + 1) fun i => decide (addrOf descs 0 i = addrOf descs 0 j2)).length
      = (sel j1 fun i => decide (addrOf descs 0 i = addrOf descs 0 j2)).length + 1 := by
    rw [sel_succ]
    simp [ha]
  have hmono := sel_length_mono (fun i => decide (addrOf descs 0 i = addrOf descs 0 j2))
    (j1 + 1) j2 h
  omega

theorem map_instAt_nodup (descs : List Description) (q : Nat) (l : List Nat) (hl : l.Nodup)
    (hlt : ∀ j ∈ l, j < descs.length) : (l.map (instAt descs q)).Nodup := by
  apply List.Nodup.map_on _ hl
  intro a ha b hb hab
  exact (instAt_ptr_inj descs q a q b (hlt a ha) (hlt b hb) (by rw [hab])).2

/-- A list of the instances of part `q` of the rows below `n` that satisfy `f`,
all of them kept and at one address: it has no repetition, it is a sublist of
the flat list of the part, and its uids ascend. -/
theorem map_instAt_sel_ordered (descs : List Description) (q n : Nat) (k : ParamIndex)
    (f : Nat → Bool) (hn : n ≤ descs.length)
    (hf : ∀ j, f j = true → addrOf descs q j = k ∧ retained descs q j = true) :
    ((sel n f).map (instAt descs q)).Nodup ∧
    ((sel n f).map (instAt descs q)).Sublist ((List.range n).map (slotAt descs q)) ∧
    ((sel n f).map (instAt descs q)).Pairwise (fun a b => a.uid < b.uid) := by
  refine ⟨?_, ?_, ?_⟩
  · apply map_instAt_nodup _ _ _ (sel_nodup n f)
    intro j hj
    have := (mem_sel.mp hj).1
    omega
  · have hcongr : (sel n f).map (instAt descs q) = (sel n f).map (slotAt descs q) := by
      apply List.map_congr_left
      intro j hj
      have hr := (hf j (mem_sel.mp hj).2).2
      simp [slotAt, hr]
    rw [hcongr]
    exact (List.filter_sublist _).map _
  · rw [List.pairwise_map]
    have hsorted : (sel n f).Pairwise (fun a b => a < b) :=
      (List.pairwise_lt_range n).filter f
    refine List.Pairwise.imp_of_mem ?_ hsorted
    intro a b ha hb hab
    have h1 := (hf a (mem_sel.mp ha).2).1
    have h2 := (hf b (mem_sel.mp hb).2).1
    have hab2 : addrOf descs 0 a = addrOf descs 0 b :=
      (addrOf_eq_iff descs q a b).mp (h1.trans h2.symm)
    simp only [instAt]
    exact_mod_cast uidOf_lt_of_earlier descs a b hab hab2

theorem finalState_internalList (pd : ParameterDescriptions) :
    (finalState pd).c.m_synthInternalParamList
      = (List.range 16).flatMap fun q =>
          ownAt pd.getDescriptions q pd.getDescriptions.length := by
  simp [finalState, stateAt, ownAt, sel_zero]

theorem mem_ownAt (descs : List Description) (q n : Nat) (x : Parameter) :
    x ∈ ownAt descs q n
      ↔ ∃ j, j < n ∧ retained descs q j = true ∧ (descAt descs j).isPublic = false
          ∧ x = instAt descs q j := by
  unfold ownAt
  rw [List.mem_map]
  constructor
  · rintro ⟨j, hj, hx⟩
    rw [mem_sel] at hj
    have h2 : retained descs q j = true ∧ (descAt descs j).isPublic = false := by
      simpa using hj.2
    exact ⟨j, hj.1, h2.1, h2.2, hx.symm⟩
  · rintro ⟨j, hj, h1, h2, hx⟩
    exact ⟨j, mem_sel.mpr ⟨hj, by simp [h1, h2]⟩, hx.symm⟩

theorem finalState_internalList_nodup (pd : ParameterDescriptions) :
    (finalState pd).c.m_synthInternalParamList.Nodup := by
  rw [finalState_internalList, List.nodup_flatMap]
  refine ⟨?_, ?_⟩
  · intro q _
    unfold ownAt
    apply map_instAt_nodup _ _ _ (sel_nodup _ _)
    intro j hj
    exact (mem_sel.mp hj).1
  · refine List.Pairwise.imp ?_ (List.pairwise_lt_range 16)
    intro a b hab
    simp only [Function.onFun]
    intro x hxa hxb
    obtain ⟨j1, h1, _, _, e1⟩ := (mem_ownAt _ _ _ _).mp hxa
    obtain ⟨j2, h2, _, _, e2⟩ := (mem_ownAt _ _ _ _).mp hxb
    have := (instAt_ptr_inj _ a j1 b j2 h1 h2 (by rw [← e1, ← e2])).1
    omega

theorem getD_listToOpt_eq {α : Type} (l m : List α) (h : listToOpt l = some m) : m = l := by
  rw [listToOpt_eq_some] at h
  exact h.1.symm

/-- C14. After `registerParams`: every instance the registry keeps (constructed
for part 0, or for any part of a part-sensitive row) occurs exactly once
across the public and the internal address map, namely in the list keyed by
its own address (page byte, part, index), and in the public map exactly when
its row is public; every list of either map is a sublist of the flat list of
its part (table order) with ascending uids; and the internal owner list
holds, without repetition, exactly the kept instances of internal rows. -/
theorem registerParams_address_maps (pd : ParameterDescriptions) :
    ∃ s, registerParams (Controller.new pd) = some s ∧
      (∀ q i d, q < 16 → pd.getDescriptions[i]? = some d →
        (q = 0 ∨ d.isNonPartSensitive = false) →
        ∃ x, s.c.getParameter i q = some x ∧ x.part = q ∧ x.desc = d ∧
          (∀ k, ((s.c.m_synthParams k).getD []).count x
              + ((s.c.m_synthInternalParams k).getD []).count x
            = if k = (⟨d.page % 256, q, d.index⟩ : ParamIndex) then 1 else 0) ∧
          (x ∈ (s.c.m_synthParams ⟨d.page % 256, q, d.index⟩).getD []
            ↔ d.isPublic = true) ∧
          (x ∈ (s.c.m_synthInternalParams ⟨d.page % 256, q, d.index⟩).getD []
            ↔ d.isPublic = false)) ∧
      (∀ k l, (s.c.m_synthParams k = some l ∨ s.c.m_synthInternalParams k = some l) →
        l.Sublist (s.c.m_paramsByParamType k.part) ∧
        l.Pairwise (fun a b => a.uid < b.uid)) ∧
      s.c.m_synthInternalParamList.Nodup ∧
      (∀ x, x ∈ s.c.m_synthInternalParamList ↔
        ∃ q i d, q < 16 ∧ pd.getDescriptions[i]? = some d ∧
          (q = 0 ∨ d.isNonPartSensitive = false) ∧ d.isPublic = false ∧
          s.c.getParameter i q = some x) := by
  have hget : ∀ k, k < pd.getDescriptions.length →
      pd.getDescriptions[k]? = some (descAt pd.getDescriptions k) := by
    intro k hk
    rw [List.getElem?_eq_getElem hk]
    unfold descAt
    rw [List.getD_eq_getElem _ _ hk]
  refine ⟨finalState pd, registerParams_eq pd, ?_, ?_, finalState_internalList_nodup pd, ?_⟩
  · -- every kept instance is in exactly one list
    intro q i d hq hd hkeep
    have hi := lt_length_of_getElem? hd
    have hdesc := descAt_of_getElem? hd
    have hr : retained pd.getDescriptions q i = true := by
      rw [retained_iff, hdesc]; exact hkeep
    have haddr : (⟨d.page % 256, q, d.index⟩ : ParamIndex) = addrOf pd.getDescriptions q i := by
      simp [addrOf, hdesc]
    have hpub : ∀ k, instAt pd.getDescriptions q i ∈ ((finalState pd).c.m_synthParams k).getD []
        ↔ (k = addrOf pd.getDescriptions q i ∧ d.isPublic = true) := by
      intro k
      rw [mem_synthParams_finalState]
      constructor
      · rintro ⟨j, _, hj, h1, _, h3, h4⟩
        obtain ⟨e1, e2⟩ := instAt_ptr_inj _ q i k.part j hi hj (by rw [h4])
        subst e2
        rw [← e1] at h1
        rw [hdesc] at h3
        exact ⟨h1.symm, h3⟩
      · rintro ⟨h1, h2⟩
        subst h1
        exact ⟨i, hq, hi, rfl, hr, by rw [hdesc]; exact h2, rfl⟩
    have hint : ∀ k,
        instAt pd.getDescriptions q i ∈ ((finalState pd).c.m_synthInternalParams k).getD []
        ↔ (k = addrOf pd.getDescriptions q i ∧ d.isPublic = false) := by
      intro k
      rw [mem_synthInternalParams_finalState]
      constructor
      · rintro ⟨j, _, hj, h1, _, h3, h4⟩
        obtain ⟨e1, e2⟩ := instAt_ptr_inj _ q i k.part j hi hj (by rw [h4])
        subst e2
        rw [← e1] at h1
        rw [hdesc] at h3
        exact ⟨h1.symm, h3⟩
      · rintro ⟨h1, h2⟩
        subst h1
        exact ⟨i, hq, hi, rfl, hr, by rw [hdesc]; exact h2, rfl⟩
    have hnd1 : ∀ k, (((finalState pd).c.m_synthParams k).getD []).Nodup := by
      intro k
      rw [finalState_synthParams, listToOpt_getD]
      unfold pubAt
      apply map_instAt_nodup _ _ _ (sel_nodup _ _)
      intro j hj
      have := (mem_sel.mp hj).1
      split at this <;> omega
    have hnd2 : ∀ k, (((finalState pd).c.m_synthInternalParams k).getD []).Nodup := by
      intro k
      rw [finalState_synthInternalParams, listToOpt_getD]
      unfold intAt
      apply map_instAt_nodup _ _ _ (sel_nodup _ _)
      intro j hj
      have := (mem_sel.mp hj).1
      split at this <;> omega
    refine ⟨instAt pd.getDescriptions q i, ?_, rfl, hdesc, ?_, ?_, ?_⟩
    · rw [getParameter_finalState, if_pos ⟨hq, hi⟩]
      simp [slotAt, hr]
    · intro k
      rw [List.count_eq_of_nodup (hnd1 k), List.count_eq_of_nodup (hnd2 k), haddr]
      by_cases hk : k = addrOf pd.getDescriptions q i
      · cases hv : d.isPublic <;> simp [hpub, hint, hk, hv]
      · simp [hpub, hint, hk]
    · rw [haddr, hpub]
      simp
    · rw [haddr, hint]
      simp
  · -- every list is in table order with ascending uids
    intro k l hl
    rw [finalState_params]
    rcases hl with hl | hl
    · rw [finalState_synthParams] at hl
      have hl2 := getD_listToOpt_eq _ _ hl
      have hne : l ≠ [] := by
        rw [hl2]; exact ((listToOpt_eq_some _ _).mp hl).2
      by_cases hq : k.part < 16
      · rw [if_pos hq] at hl2 ⊢
        obtain ⟨_, h2, h3⟩ := map_instAt_sel_ordered pd.getDescriptions k.part
          pd.getDescriptions.length k
          (fun j => decide (addrOf pd.getDescriptions k.part j = k)
            && retained pd.getDescriptions k.part j && (descAt pd.getDescriptions j).isPublic)
          (Nat.le_refl _)
          (by
            intro j hj
            have : (addrOf pd.getDescriptions k.part j = k
                ∧ retained pd.getDescriptions k.part j = true)
                ∧ (descAt pd.getDescriptions j).isPublic = true := by simpa using hj
            exact this.1)
        rw [hl2]
        exact ⟨h2, h3⟩
      · rw [if_neg hq] at hl2
        exact absurd (by rw [hl2]; simp [pubAt, sel_zero]) hne
    · rw [finalState_synthInternalParams] at hl
      have hl2 := getD_listToOpt_eq _ _ hl
      have hne : l ≠ [] := by
        rw [hl2]; exact ((listToOpt_eq_some _ _).mp hl).2
      by_cases hq : k.part < 16
      · rw [if_pos hq] at hl2 ⊢
        obtain ⟨_, h2, h3⟩ := map_instAt_sel_ordered pd.getDescriptions k.part
          pd.getDescriptions.length k
          (fun j => decide (addrOf pd.getDescriptions k.part j = k)
            && retained pd.getDescriptions k.part j && !(descAt pd.getDescriptions j).isPublic)
          (Nat.le_refl _)
          (by
            intro j hj
            have : (addrOf pd.getDescriptions k.part j = k
                ∧ retained pd.getDescriptions k.part j = true)
                ∧ (descAt pd.getDescriptions j).isPublic = false := by simpa using hj
            exact this.1)
        rw [hl2]
        exact ⟨h2, h3⟩
      · rw [if_neg hq] at hl2
        exact absurd (by rw [hl2]; simp [intAt, sel_zero]) hne
  · -- the internal owner list
    intro x
    rw [finalState_internalList, List.mem_flatMap]
    constructor
    · rintro ⟨q, hq, hx⟩
      obtain ⟨j, hj, hr, hv, he⟩ := (mem_ownAt _ _ _ _).mp hx
      have hq2 := List.mem_range.mp hq
      refine ⟨q, j, descAt pd.getDescriptions j, hq2, hget j hj, (retained_iff _ _ _).mp hr,
        hv, ?_⟩
      rw [getParameter_finalState, if_pos ⟨hq2, hj⟩, he]
      simp [slotAt, hr]
    · rintro ⟨q, i, d, hq, hd, hkeep, hv, hx⟩
      have hi := lt_length_of_getElem? hd
      have hdesc := descAt_of_getElem? hd
      have hr : retained pd.getDescriptions q i = true := by
        rw [retained_iff, hdesc]; exact hkeep
      refine ⟨q, List.mem_range.mpr hq, ?_⟩
      rw [mem_ownAt]
      refine ⟨i, hi, hr, by rw [hdesc]; exact hv, ?_⟩
      rw [getParameter_finalState, if_pos ⟨hq, hi⟩] at hx
      rw [← Option.some.inj hx]
      simp [slotAt, hr]

/-- C15. Failing input of `registerParams`: a table with a part-sensitive row
followed by a non-part-sensitive row at the same address. At part 1 the
second row gets uid 1, so the instance constructed for it is passed to
`addDerivedParameter` of the part-1 instance of the first row, and is then
discarded at the `continue`: the link points to an instance that is in no
flat list and in neither address map. -/
theorem registerParams_links_discarded_instance :
    ∃ s e x, registerParams (Controller.new mixedSensitivityDescriptions) = some s ∧
      s.c.getParameter 0 1 = some e ∧ (e, x) ∈ s.derived ∧ x ∈ s.discarded ∧
      x.part = 1 ∧ x.uid = 1 ∧
      x.desc = (⟨1, 5, "cutoffAll", true, true⟩ : Description) ∧
      (∀ q, x ∉ s.c.m_paramsByParamType q) ∧
      (∀ k, x ∉ (s.c.m_synthParams k).getD []) ∧
      (∀ k, x ∉ (s.c.m_synthInternalParams k).getD []) :=
  ⟨finalState mixedSensitivityDescriptions,
    instAt mixedSensitivityDescriptions.getDescriptions 1 0,
    instAt mixedSensitivityDescriptions.getDescriptions 1 1,
    registerParams_eq mixedSensitivityDescriptions, by decide, by decide, by decide, by decide,
    by decide, by decide,
    (discarded_not_kept mixedSensitivityDescriptions _ (by decide)).1,
    (discarded_not_kept mixedSensitivityDescriptions _ (by decide)).2.1,
    (discarded_not_kept mixedSensitivityDescriptions _ (by decide)).2.2⟩

/-! ### Checksum errors in the parses of the controller -/

/-- With checksum errors ignored, one step of the walk of `parse` stops exactly
at a Byte field whose literal differs and at a Parameter field that does not
resolve. -/
theorem parseField_ignore_isSome (p : MidiPacket) (parameters : ParameterDescriptions)
    (src : Sysex) (acc : Data × ParamValues) (e : MidiDataDefinition × Nat) :
    (p.parseField parameters src true acc e).isSome = true ↔
      (e.1.type = MidiDataType.Byte → e.1.byte = e.2) ∧
      (e.1.type = MidiDataType.Parameter → p.resolveParam parameters src e.1 ≠ none) := by
  unfold MidiPacket.parseField
  cases hT : e.1.type with
  | Byte =>
    by_cases hb : e.1.byte = e.2 <;> simp [hb]
  | Checksum =>
    by_cases hc : MidiPacket.calcChecksum e.1 src = e.2 <;> simp [hc]
  | Parameter =>
    cases hr : p.resolveParam parameters src e.1 <;> simp
  | _ => simp

/-- With checksum errors ignored, the walk of `parse` comes through exactly when
every Byte literal matches and every Parameter field resolves. -/
theorem foldlM_parseField_ignore_isSome (p : MidiPacket) (parameters : ParameterDescriptions)
    (src : Sysex) (l : List (MidiDataDefinition × Nat)) (acc : Data × ParamValues) :
    (l.foldlM (p.parseField parameters src true) acc).isSome = true ↔
      ∀ e ∈ l, (e.1.type = MidiDataType.Byte → e.1.byte = e.2) ∧
        (e.1.type = MidiDataType.Parameter → p.resolveParam parameters src e.1 ≠ none) := by
  induction l generalizing acc with
  | nil => simp
  | cons e rest ih =>
    simp only [List.foldlM_cons, Option.bind_eq_bind, List.mem_cons, forall_eq_or_imp]
    cases h1 : p.parseField parameters src true acc e with
    | none =>
      have := (parseField_ignore_isSome p parameters src acc e).not.mp (by simp [h1])
      simp only [Option.none_bind, Option.isSome_none, Bool.false_eq_true, false_iff]
      exact fun h => this h.1
    | some acc1 =>
      have := (parseField_ignore_isSome p parameters src acc e).mp (by simp [h1])
      simp only [Option.some_bind, ih acc1]
      exact ⟨fun h => ⟨this, h⟩, fun h => h.2⟩

/-- The parse of the spec with checksum errors ignored accepts a buffer exactly
when the buffer passes the checks that are not checksums. -/
theorem parse_ignore_accepts (p : MidiPacket) (parameters : ParameterDescriptions)
    (data : Data) (parameterValues : ParamValues) (src : Sysex) :
    (p.parse data parameterValues parameters src true).1
      = p.passesWithoutChecksums parameters src := by
  unfold MidiPacket.parse MidiPacket.passesWithoutChecksums
  by_cases hlen : src.length = p.size
  · have h := foldlM_parseField_ignore_isSome p parameters src (p.m_definitions.zip src)
      (data, parameterValues)
    simp only [hlen, ne_eq, not_true_eq_false, if_false, decide_True, Bool.true_and]
    cases hf : (p.m_definitions.zip src).foldlM (p.parseField parameters src true)
        (data, parameterValues) with
    | none =>
      rw [hf] at h
      have h2 := h.not.mp (by simp)
      symm
      rw [← Bool.not_eq_true]
      intro hall
      apply h2
      intro e he
      have := List.all_eq_true.mp hall e he
      simp only [Bool.and_eq_true, Bool.or_eq_true, bne_iff_ne, ne_eq, decide_eq_true_eq,
        Option.isSome_iff_ne_none] at this
      exact ⟨fun hT => this.1.resolve_left (fun hc => hc hT),
        fun hT => this.2.resolve_left (fun hc => hc hT)⟩
    | some r =>
      rw [hf] at h
      have h2 := h.mp rfl
      symm
      apply List.all_eq_true.mpr
      intro e he
      simp only [Bool.and_eq_true, Bool.or_eq_true, bne_iff_ne, ne_eq, decide_eq_true_eq,
        Option.isSome_iff_ne_none]
      refine ⟨?_, ?_⟩
      · by_cases hT : e.1.type = MidiDataType.Byte
        · exact Or.inr ((h2 e he).1 hT)
        · exact Or.inl hT
      · by_cases hT : e.1.type = MidiDataType.Parameter
        · exact Or.inr ((h2 e he).2 hT)
        · exact Or.inl hT
  · simp [hlen]

/-- The identifying parse accepts a buffer exactly when the parse of some packet
of the table does. -/
theorem probePackets_accepts (c : Controller) (codec : PacketCodec) (src : Sysex)
    (packets : List (String × MidiPacket)) (name : String) (data : Data)
    (parameterValues : ParamValues) :
    (c.probePackets codec src packets name data parameterValues).1 = true ↔
      ∃ e ∈ packets,
        (codec.parse e.2 FMap.empty FMap.empty c.m_descriptions src true).1 = true := by
  induction packets generalizing data parameterValues with
  | nil => simp [Controller.probePackets]
  | cons p rest ih =>
    unfold Controller.probePackets
    simp only [Controller.parseMidiPacket]
    by_cases hp : (codec.parse p.2 FMap.empty FMap.empty c.m_descriptions src true).1 = true
    · simp only [hp, Bool.not_true, Bool.false_eq_true, if_false, true_iff]
      exact ⟨p, List.mem_cons_self _ _, hp⟩
    · have hp2 : (codec.parse p.2 FMap.empty FMap.empty c.m_descriptions src true).1 = false := by
        simpa using hp
      simp only [hp2, Bool.not_false, if_true, ih, List.mem_cons, exists_eq_or_imp,
        Bool.false_eq_true, false_or]

/-- C17. Every parse made through the controller calls the parse of the packet
with `_ignoreChecksumErrors = true` (the call sites pass four arguments, the
header gives the default), for each of the three overloads. By packet: the
result is what that parse returns from cleared maps. By name: the same for the
packet of that name, and a failure that leaves the maps alone when there is
none. Identifying: the result is that parse of the first packet of the table
it accepts, with the name of that packet, and the buffer is accepted exactly
when that parse accepts it for some packet of the table. With the parse of the
spec, each overload accepts a buffer exactly when the buffer passes the checks
that are not checksums (length, Byte literals, Parameter fields that resolve)
for the packet, the named packet, or some packet of the table: a checksum
mismatch alone never rejects it. -/
theorem parseMidiPacket_ignores_checksum_errors (c : Controller) (codec : PacketCodec)
    (packet : MidiPacket) (name : String) (data : Data) (parameterValues : ParamValues)
    (src : Sysex) :
    c.parseMidiPacket codec packet data parameterValues src
      = codec.parse packet FMap.empty FMap.empty c.m_descriptions src true ∧
    (∀ m, c.getMidiPacket name = some m →
      c.parseMidiPacketByName codec name data parameterValues src
        = codec.parse m FMap.empty FMap.empty c.m_descriptions src true) ∧
    (c.getMidiPacket name = none →
      c.parseMidiPacketByName codec name data parameterValues src
        = (false, data, parameterValues)) ∧
    (∀ pre e post, c.m_descriptions.getMidiPackets = pre ++ e :: post →
      (∀ x ∈ pre,
        (codec.parse x.2 FMap.empty FMap.empty c.m_descriptions src true).1 = false) →
      (codec.parse e.2 FMap.empty FMap.empty c.m_descriptions src true).1 = true →
      c.parseMidiPacketIdentify codec name data parameterValues src
        = (true, e.1, (codec.parse e.2 FMap.empty FMap.empty c.m_descriptions src true).2.1,
            (codec.parse e.2 FMap.empty FMap.empty c.m_descriptions src true).2.2)) ∧
    ((c.parseMidiPacketIdentify codec name data parameterValues src).1 = true ↔
      ∃ e ∈ c.m_descriptions.getMidiPackets,
        (codec.parse e.2 FMap.empty FMap.empty c.m_descriptions src true).1 = true) ∧
    (c.parseMidiPacket specCodec packet data parameterValues src).1
      = packet.passesWithoutChecksums c.m_descriptions src ∧
    ((c.parseMidiPacketByName specCodec name data parameterValues src).1 = true ↔
      ∃ m, c.getMidiPacket name = some m ∧
        m.passesWithoutChecksums c.m_descriptions src = true) ∧
    ((c.parseMidiPacketIdentify specCodec name data parameterValues src).1 = true ↔
      ∃ e ∈ c.m_descriptions.getMidiPackets,
        e.2.passesWithoutChecksums c.m_descriptions src = true) ∧
    (packet.passesWithoutChecksums c.m_descriptions src = true ↔
      src.length = packet.size ∧
      ∀ e ∈ packet.m_definitions.zip src,
        (e.1.type = MidiDataType.Byte → e.1.byte = e.2) ∧
        (e.1.type = MidiDataType.Parameter →
          packet.resolveParam c.m_descriptions src e.1 ≠ none)) := by
  refine ⟨rfl, ?_, ?_, ?_, ?_, ?_, ?_, ?_, ?_⟩
  · intro m hm
    simp [Controller.parseMidiPacketByName, hm, Controller.parseMidiPacket]
  · intro hm
    simp [Controller.parseMidiPacketByName, hm]
  · exact (probePackets_spec c codec src c.m_descriptions.getMidiPackets name data
      parameterValues).1
  · exact probePackets_accepts c codec src _ name data parameterValues
  · exact parse_ignore_accepts packet c.m_descriptions _ _ src
  · unfold Controller.parseMidiPacketByName
    cases hm : c.getMidiPacket name with
    | none => simp
    | some m =>
      simp only [Controller.parseMidiPacket, specCodec, Option.some.injEq, exists_eq_left']
      rw [parse_ignore_accepts]
  · unfold Controller.parseMidiPacketIdentify
    rw [probePackets_accepts]
    simp only [specCodec, parse_ignore_accepts]
  · unfold MidiPacket.passesWithoutChecksums
    simp only [Bool.and_eq_true, decide_eq_true_eq, List.all_eq_true, Bool.or_eq_true,
      bne_iff_ne, ne_eq, Option.isSome_iff_ne_none]
    refine and_congr_right fun _ => forall_congr' fun e => forall_congr' fun _ => ?_
    refine and_congr ?_ ?_
    · by_cases hT : e.1.type = MidiDataType.Byte <;> simp [hT]
    · by_cases hT : e.1.type = MidiDataType.Parameter <;> simp [hT]

/-- Witness of C17: the buffer `[9, 9]` has both checksums of
`crossChecksumPacket` wrong; the parse of the packet rejects it when checksum
errors are fatal, the controller accepts it through each of the three
overloads, and the identifying overload names the packet. -/
theorem parseMidiPacket_ignores_checksum_errors_witness :
    ((Controller.new sampleDescriptions).parseMidiPacket specCodec crossChecksumPacket
        scenarioData FMap.empty [9, 9]).1 = true ∧
    ((Controller.new sampleDescriptions).parseMidiPacketByName specCodec "crossChecksum"
        scenarioData FMap.empty [9, 9]).1 = true ∧
    ((Controller.new sampleDescriptions).parseMidiPacketIdentify specCodec "crossChecksum"
        scenarioData FMap.empty [9, 9]).1 = true ∧
    (crossChecksumPacket.parse FMap.empty FMap.empty sampleDescriptions [9, 9] false).1
      = false :=
  ⟨by
    rw [(parseMidiPacket_ignores_checksum_errors (Controller.new sampleDescriptions) specCodec
      crossChecksumPacket "crossChecksum" scenarioData FMap.empty [9, 9]).2.2.2.2.2.1]
    decide,
   (parseMidiPacket_ignores_checksum_errors (Controller.new sampleDescriptions) specCodec
      crossChecksumPacket "crossChecksum" scenarioData FMap.empty [9, 9]).2.2.2.2.2.2.1.mpr
      ⟨crossChecksumPacket, by decide, by decide⟩,
   (parseMidiPacket_ignores_checksum_errors (Controller.new sampleDescriptions) specCodec
      crossChecksumPacket "crossChecksum" scenarioData FMap.empty [9, 9]).2.2.2.2.2.2.2.1.mpr
      ⟨("crossChecksum", crossChecksumPacket), by decide, by decide⟩,
   by decide⟩

end pluginLib
